import Mathlib

/-!
TOTP generator (`main.go`): a shallow embedding and its verified properties

The program computes an RFC 6238 time-based one-time password.  Go values are
embedded as follows.

* `string` is `String` (UTF-8 text); the conversion `[]byte(s)` is the list of
  its UTF-8 bytes, each byte a `Nat` below 256.
* `int` and `int64` are `Int`, with the 64-bit two's-complement wrap
  (`wrapInt64`) applied wherever the program's arithmetic can overflow.
* `HashingAlgorithm` is an `int` in the source, so it is an `Int` here; the
  constants `SHA1`, `SHA256`, `SHA512` are `0`, `1`, `2`.
* The clock read `time.Now().UTC().Unix()` is the extra argument `now`.
* A call either returns the pair `(string, error)` or stops with a run-time
  panic; `Outcome` records which.
* The standard library functions the program calls (`crypto/sha1`,
  `crypto/sha256`, `crypto/sha512`, `crypto/hmac`, `encoding/binary`,
  `fmt.Sprintf`) are embedded from their published definitions
  (FIPS 180-4, RFC 2104, and the `fmt` verb `%0Nd`).
-/

namespace TOTP

/-! ## Bytes and words -/

/-- Big-endian encoding of `x` on `n` bytes (the value is taken modulo `256 ^ n`). -/
def beBytes : Nat → Nat → List Nat
  | 0, _ => []
  | n + 1, x => (x >>> (8 * n)) % 256 :: beBytes n x

/-- Big-endian value of a byte sequence. -/
def beWord (bs : List Nat) : Nat :=
  bs.foldl (fun acc b => acc * 256 + b % 256) 0

/-- Rotate the `w`-bit word `x` left by `n` bits. -/
def rotl (w x n : Nat) : Nat :=
  ((x <<< n) ||| (x >>> (w - n))) % 2 ^ w

/-- Rotate the `w`-bit word `x` right by `n` bits. -/
def rotr (w x n : Nat) : Nat :=
  ((x >>> n) ||| (x <<< (w - n))) % 2 ^ w

/-- Bitwise complement of the `w`-bit word `x`. -/
def notW (w x : Nat) : Nat :=
  x ^^^ (2 ^ w - 1)

/-- The `i`-th block of `size` bytes of `bs`. -/
def blockAt (size : Nat) (bs : List Nat) (i : Nat) : List Nat :=
  (bs.drop (size * i)).take size

/-- The big-endian words of `wbytes` bytes each that make up a block of 16 words. -/
def blockWords (wbytes : Nat) (blk : List Nat) : List Nat :=
  (List.range 16).map fun j => beWord (blockAt wbytes blk j)

/-- Merkle–Damgård padding: the byte `0x80`, zero bytes up to `lenBytes` short of
a multiple of `blockSize`, then the bit length on `lenBytes` bytes, big-endian. -/
def mdPad (blockSize lenBytes : Nat) (msg : List Nat) : List Nat :=
  let used := (msg.length + 1 + lenBytes) % blockSize
  let zeros := (blockSize - used) % blockSize
  msg ++ 0x80 :: List.replicate zeros 0 ++ beBytes lenBytes (8 * msg.length)

/-! ## SHA-1 (FIPS 180-4 §6.1), as `crypto/sha1` -/

/-- The five 32-bit chaining words of SHA-1. -/
structure Sha1State where
  h0 : Nat
  h1 : Nat
  h2 : Nat
  h3 : Nat
  h4 : Nat
  deriving DecidableEq, Repr

def sha1Init : Sha1State :=
  ⟨0x67452301, 0xEFCDAB89, 0x98BADCFE, 0x10325476, 0xC3D2E1F0⟩

/-- Extends a message schedule held most-recent-first by `n` further words. -/
def sha1Extend : Nat → List Nat → List Nat
  | 0, ws => ws
  | n + 1, ws =>
    let t := ws.getD 2 0 ^^^ ws.getD 7 0 ^^^ ws.getD 13 0 ^^^ ws.getD 15 0
    sha1Extend n (rotl 32 t 1 :: ws)

/-- The 80-word message schedule of a block. -/
def sha1Schedule (blk : List Nat) : List Nat :=
  (sha1Extend 64 (blockWords 4 blk).reverse).reverse

/-- Round function and constant of round `i`. -/
def sha1F (i b c d : Nat) : Nat × Nat :=
  if i < 20 then ((b &&& c) ||| (notW 32 b &&& d), 0x5A827999)
  else if i < 40 then (b ^^^ c ^^^ d, 0x6ED9EBA1)
  else if i < 60 then (((b ||| c) &&& d) ||| (b &&& c), 0x8F1BBCDC)
  else (b ^^^ c ^^^ d, 0xCA62C1D6)

/-- One round of the SHA-1 compression function. -/
def sha1Round (s : Sha1State) (i w : Nat) : Sha1State :=
  let fk := sha1F i s.h1 s.h2 s.h3
  let t := (rotl 32 s.h0 5 + fk.1 + s.h4 + w + fk.2) % 2 ^ 32
  ⟨t, s.h0, rotl 32 s.h1 30, s.h2, s.h3⟩

/-- Runs the rounds over the schedule words `ws`, the first being round `i`. -/
def sha1Rounds : List Nat → Nat → Sha1State → Sha1State
  | [], _, s => s
  | w :: ws, i, s => sha1Rounds ws (i + 1) (sha1Round s i w)

/-- The SHA-1 compression function on one 64-byte block. -/
def sha1Block (s : Sha1State) (blk : List Nat) : Sha1State :=
  let r := sha1Rounds (sha1Schedule blk) 0 s
  ⟨(s.h0 + r.h0) % 2 ^ 32, (s.h1 + r.h1) % 2 ^ 32, (s.h2 + r.h2) % 2 ^ 32,
   (s.h3 + r.h3) % 2 ^ 32, (s.h4 + r.h4) % 2 ^ 32⟩

/-- Serialises the chaining words, big-endian. -/
def Sha1State.bytes (s : Sha1State) : List Nat :=
  beBytes 4 s.h0 ++ beBytes 4 s.h1 ++ beBytes 4 s.h2 ++ beBytes 4 s.h3 ++ beBytes 4 s.h4

/-- SHA-1 digest (20 bytes) of a byte sequence. -/
def sha1 (msg : List Nat) : List Nat :=
  let padded := mdPad 64 8 msg
  ((List.range (padded.length / 64)).foldl
    (fun s i => sha1Block s (blockAt 64 padded i)) sha1Init).bytes

/-! ## SHA-256 and SHA-512 (FIPS 180-4 §6.2, §6.4), as `crypto/sha256`, `crypto/sha512` -/

/-- The eight chaining words of SHA-256 (32-bit) and SHA-512 (64-bit). -/
structure Sha2State where
  a : Nat
  b : Nat
  c : Nat
  d : Nat
  e : Nat
  f : Nat
  g : Nat
  h : Nat
  deriving DecidableEq, Repr

/-- What distinguishes SHA-256 from SHA-512: the word size in bits, the rotation
amounts of the four sigma functions, the round constants and the initial value. -/
structure Sha2Params where
  w : Nat
  bigSigma0 : Nat × Nat × Nat
  bigSigma1 : Nat × Nat × Nat
  smallSigma0 : Nat × Nat × Nat
  smallSigma1 : Nat × Nat × Nat
  k : List Nat
  init : Sha2State

/-- The function Σ with rotation amounts `r`. -/
def sha2BigSigma (w : Nat) (r : Nat × Nat × Nat) (x : Nat) : Nat :=
  rotr w x r.1 ^^^ rotr w x r.2.1 ^^^ rotr w x r.2.2

/-- The function σ: two rotations and a shift, by the amounts `r`. -/
def sha2SmallSigma (w : Nat) (r : Nat × Nat × Nat) (x : Nat) : Nat :=
  rotr w x r.1 ^^^ rotr w x r.2.1 ^^^ (x >>> r.2.2)

/-- Extends a message schedule held most-recent-first by `n` further words. -/
def sha2Extend (p : Sha2Params) : Nat → List Nat → List Nat
  | 0, ws => ws
  | n + 1, ws =>
    let t := (sha2SmallSigma p.w p.smallSigma1 (ws.getD 1 0) + ws.getD 6 0 +
      sha2SmallSigma p.w p.smallSigma0 (ws.getD 14 0) + ws.getD 15 0) % 2 ^ p.w
    sha2Extend p n (t :: ws)

/-- The message schedule of a block: one word per round constant. -/
def sha2Schedule (p : Sha2Params) (blk : List Nat) : List Nat :=
  (sha2Extend p (p.k.length - 16) (blockWords (p.w / 8) blk).reverse).reverse

/-- One round of the SHA-2 compression function with schedule word `w` and constant `k`. -/
def sha2Round (p : Sha2Params) (s : Sha2State) (w k : Nat) : Sha2State :=
  let ch := (s.e &&& s.f) ^^^ (notW p.w s.e &&& s.g)
  let maj := (s.a &&& s.b) ^^^ (s.a &&& s.c) ^^^ (s.b &&& s.c)
  let t1 := s.h + sha2BigSigma p.w p.bigSigma1 s.e + ch + k + w
  let t2 := sha2BigSigma p.w p.bigSigma0 s.a + maj
  ⟨(t1 + t2) % 2 ^ p.w, s.a, s.b, s.c, (s.d + t1) % 2 ^ p.w, s.e, s.f, s.g⟩

/-- Runs the rounds over the schedule words paired with the round constants. -/
def sha2Rounds (p : Sha2Params) : List (Nat × Nat) → Sha2State → Sha2State
  | [], s => s
  | wk :: rest, s => sha2Rounds p rest (sha2Round p s wk.1 wk.2)

/-- The SHA-2 compression function on one block of 16 words. -/
def sha2Block (p : Sha2Params) (s : Sha2State) (blk : List Nat) : Sha2State :=
  let r := sha2Rounds p ((sha2Schedule p blk).zip p.k) s
  ⟨(s.a + r.a) % 2 ^ p.w, (s.b + r.b) % 2 ^ p.w, (s.c + r.c) % 2 ^ p.w,
   (s.d + r.d) % 2 ^ p.w, (s.e + r.e) % 2 ^ p.w, (s.f + r.f) % 2 ^ p.w,
   (s.g + r.g) % 2 ^ p.w, (s.h + r.h) % 2 ^ p.w⟩

/-- Serialises the chaining words, big-endian on `n` bytes each. -/
def Sha2State.bytes (n : Nat) (s : Sha2State) : List Nat :=
  beBytes n s.a ++ beBytes n s.b ++ beBytes n s.c ++ beBytes n s.d ++
  beBytes n s.e ++ beBytes n s.f ++ beBytes n s.g ++ beBytes n s.h

/-- SHA-2 digest of a byte sequence: blocks of 16 words, the length field two words. -/
def sha2 (p : Sha2Params) (msg : List Nat) : List Nat :=
  let blockSize := 16 * (p.w / 8)
  let padded := mdPad blockSize (2 * (p.w / 8)) msg
  ((List.range (padded.length / blockSize)).foldl
    (fun s i => sha2Block p s (blockAt blockSize padded i)) p.init).bytes (p.w / 8)

def sha256Params : Sha2Params where
  w := 32
  bigSigma0 := (2, 13, 22)
  bigSigma1 := (6, 11, 25)
  smallSigma0 := (7, 18, 3)
  smallSigma1 := (17, 19, 10)
  k := [
   0x428a2f98, 0x71374491, 0xb5c0fbcf, 0xe9b5dba5, 0x3956c25b, 0x59f111f1,
   0x923f82a4, 0xab1c5ed5, 0xd807aa98, 0x12835b01, 0x243185be, 0x550c7dc3,
   0x72be5d74, 0x80deb1fe, 0x9bdc06a7, 0xc19bf174, 0xe49b69c1, 0xefbe4786,
   0x0fc19dc6, 0x240ca1cc, 0x2de92c6f, 0x4a7484aa, 0x5cb0a9dc, 0x76f988da,
   0x983e5152, 0xa831c66d, 0xb00327c8, 0xbf597fc7, 0xc6e00bf3, 0xd5a79147,
   0x06ca6351, 0x14292967, 0x27b70a85, 0x2e1b2138, 0x4d2c6dfc, 0x53380d13,
   0x650a7354, 0x766a0abb, 0x81c2c92e, 0x92722c85, 0xa2bfe8a1, 0xa81a664b,
   0xc24b8b70, 0xc76c51a3, 0xd192e819, 0xd6990624, 0xf40e3585, 0x106aa070,
   0x19a4c116, 0x1e376c08, 0x2748774c, 0x34b0bcb5, 0x391c0cb3, 0x4ed8aa4a,
   0x5b9cca4f, 0x682e6ff3, 0x748f82ee, 0x78a5636f, 0x84c87814, 0x8cc70208,
   0x90befffa, 0xa4506ceb, 0xbef9a3f7, 0xc67178f2]
  init := ⟨0x6a09e667, 0xbb67ae85, 0x3c6ef372, 0xa54ff53a,
           0x510e527f, 0x9b05688c, 0x1f83d9ab, 0x5be0cd19⟩

def sha512Params : Sha2Params where
  w := 64
  bigSigma0 := (28, 34, 39)
  bigSigma1 := (14, 18, 41)
  smallSigma0 := (1, 8, 7)
  smallSigma1 := (19, 61, 6)
  k := [
   0x428a2f98d728ae22, 0x7137449123ef65cd, 0xb5c0fbcfec4d3b2f, 0xe9b5dba58189dbbc,
   0x3956c25bf348b538, 0x59f111f1b605d019, 0x923f82a4af194f9b, 0xab1c5ed5da6d8118,
   0xd807aa98a3030242, 0x12835b0145706fbe, 0x243185be4ee4b28c, 0x550c7dc3d5ffb4e2,
   0x72be5d74f27b896f, 0x80deb1fe3b1696b1, 0x9bdc06a725c71235, 0xc19bf174cf692694,
   0xe49b69c19ef14ad2, 0xefbe4786384f25e3, 0x0fc19dc68b8cd5b5, 0x240ca1cc77ac9c65,
   0x2de92c6f592b0275, 0x4a7484aa6ea6e483, 0x5cb0a9dcbd41fbd4, 0x76f988da831153b5,
   0x983e5152ee66dfab, 0xa831c66d2db43210, 0xb00327c898fb213f, 0xbf597fc7beef0ee4,
   0xc6e00bf33da88fc2, 0xd5a79147930aa725, 0x06ca6351e003826f, 0x142929670a0e6e70,
   0x27b70a8546d22ffc, 0x2e1b21385c26c926, 0x4d2c6dfc5ac42aed, 0x53380d139d95b3df,
   0x650a73548baf63de, 0x766a0abb3c77b2a8, 0x81c2c92e47edaee6, 0x92722c851482353b,
   0xa2bfe8a14cf10364, 0xa81a664bbc423001, 0xc24b8b70d0f89791, 0xc76c51a30654be30,
   0xd192e819d6ef5218, 0xd69906245565a910, 0xf40e35855771202a, 0x106aa07032bbd1b8,
   0x19a4c116b8d2d0c8, 0x1e376c085141ab53, 0x2748774cdf8eeb99, 0x34b0bcb5e19b48a8,
   0x391c0cb3c5c95a63, 0x4ed8aa4ae3418acb, 0x5b9cca4f7763e373, 0x682e6ff3d6b2b8a3,
   0x748f82ee5defb2fc, 0x78a5636f43172f60, 0x84c87814a1f0ab72, 0x8cc702081a6439ec,
   0x90befffa23631e28, 0xa4506cebde82bde9, 0xbef9a3f7b2c67915, 0xc67178f2e372532b,
   0xca273eceea26619c, 0xd186b8c721c0c207, 0xeada7dd6cde0eb1e, 0xf57d4f7fee6ed178,
   0x06f067aa72176fba, 0x0a637dc5a2c898a6, 0x113f9804bef90dae, 0x1b710b35131c471b,
   0x28db77f523047d84, 0x32caab7b40c72493, 0x3c9ebe0a15c9bebc, 0x431d67c49c100d4c,
   0x4cc5d4becb3e42b6, 0x597f299cfc657e2a, 0x5fcb6fab3ad6faec, 0x6c44198c4a475817]
  init := ⟨0x6a09e667f3bcc908, 0xbb67ae8584caa73b, 0x3c6ef372fe94f82b, 0xa54ff53a5f1d36f1,
           0x510e527fade682d1, 0x9b05688c2b3e6c1f, 0x1f83d9abfb41bd6b, 0x5be0cd19137e2179⟩

/-- SHA-256 digest (32 bytes). -/
def sha256 (msg : List Nat) : List Nat := sha2 sha256Params msg

/-- SHA-512 digest (64 bytes). -/
def sha512 (msg : List Nat) : List Nat := sha2 sha512Params msg

/-! ## HMAC (RFC 2104), as `crypto/hmac` -/

/-- A hash function together with its block size in bytes. -/
structure HashFunc where
  sum : List Nat → List Nat
  blockSize : Nat

/-- HMAC of `msg` under `key`: keys longer than a block are hashed first, the
key is zero-padded to a block, and the inner and outer pads are `0x36`, `0x5c`. -/
def hmac (h : HashFunc) (key msg : List Nat) : List Nat :=
  let k := if key.length > h.blockSize then h.sum key else key
  let k := k ++ List.replicate (h.blockSize - k.length) 0
  let ipad := k.map fun b => b ^^^ 0x36
  let opad := k.map fun b => b ^^^ 0x5c
  h.sum (opad ++ h.sum (ipad ++ msg))

/-- The constructor `sha1.New`: SHA-1, block size 64. -/
def sha1New : HashFunc := ⟨sha1, 64⟩

/-- The constructor `sha256.New`: SHA-256, block size 64. -/
def sha256New : HashFunc := ⟨sha256, 64⟩

/-- The constructor `sha512.New`: SHA-512, block size 128. -/
def sha512New : HashFunc := ⟨sha512, 128⟩

/-! ## `fmt.Sprintf` with the verb `%0Nd` -/

/-- The base-10 digit loop of `fmt`: while `u >= 10` the digit
`'0' + u - (u/10)*10` is stored in front of the buffer and `u` becomes `u/10`;
the last digit `u < 10` is stored after the loop.  `fuel` bounds the number of
iterations; `u + 1` is always enough. -/
def fmtDigits : Nat → Nat → List Char → List Char
  | 0, _, buf => buf
  | fuel + 1, u, buf =>
    if 10 ≤ u then
      let next := u / 10
      fmtDigits fuel next (Char.ofNat (48 + (u - next * 10)) :: buf)
    else Char.ofNat (48 + u) :: buf

/-- The text `fmt.Sprintf("%0Nd", v)` with `N = wid`: the decimal digits of
`|v|`, zeros in front of them up to the precision (the width, one less for a
negative number), then the sign. -/
def sprintfZeroPad (wid : Nat) (v : Int) : String :=
  let negative : Bool := decide (v < 0)
  let u := v.natAbs
  let prec := if negative then wid - 1 else wid
  let ds := fmtDigits (u + 1) u []
  let padded := List.replicate (prec - ds.length) '0' ++ ds
  String.mk (if negative then '-' :: padded else padded)

/-! ## The program -/

/-- The Go conversion `[]byte(s)`: the UTF-8 bytes of the text. -/
def stringBytes (s : String) : List Nat :=
  s.toUTF8.data.toList.map fun b => b.toNat

/-- Reduction of a mathematical integer to Go's 64-bit `int`. -/
def wrapInt64 (x : Int) : Int :=
  (x + 2 ^ 63) % 2 ^ 64 - 2 ^ 63

/-- The type `HashingAlgorithm` is `int`. -/
abbrev HashingAlgorithm := Int

def SHA1 : HashingAlgorithm := 0
def SHA256 : HashingAlgorithm := 1
def SHA512 : HashingAlgorithm := 2

/-- What a call of `generateTOTP` does: it returns the pair `(string, error)`,
`err = none` being the nil error, or it stops with a run-time panic. -/
inductive Outcome where
  | ret (code : String) (err : Option String)
  | panic (msg : String)
  deriving DecidableEq, Repr

/-- Lines 38–41: `counter := currentTime / int64(timeStep)` (Go's division
truncates toward zero), converted to `uint64` and written big-endian into the
8-byte buffer. -/
def counterBytes (currentTime timeStep : Int) : List Nat :=
  let counter := Int.tdiv currentTime timeStep
  beBytes 8 (counter % 2 ^ 64).toNat

/-- Lines 43–53: the `switch algorithm`; `none` is the `default` branch. -/
def selectHash (algorithm : HashingAlgorithm) : Option HashFunc :=
  if algorithm = SHA1 then some sha1New
  else if algorithm = SHA256 then some sha256New
  else if algorithm = SHA512 then some sha512New
  else none

/-- Line 59: `offset := int(hash[len(hash)-1] & 0x0f)`. -/
def truncOffset (hash : List Nat) : Nat :=
  hash.getD (hash.length - 1) 0 &&& 0x0f

/-- Lines 60–62: `codeInt := int(binary.BigEndian.Uint32(hash[offset:offset+4]) & 0x7fffffff)`. -/
def codeInt (hash : List Nat) : Int :=
  let offset := truncOffset hash
  let slice := (hash.drop offset).take 4
  ((beWord slice &&& 0x7fffffff : Nat) : Int)

/-- Lines 64–67: `modDivisor` after `n` further passes of the loop body
`modDivisor *= 10`, in 64-bit `int` arithmetic. -/
def modDivisorLoop : Nat → Int → Int
  | 0, m => m
  | n + 1, m => modDivisorLoop n (wrapInt64 (m * 10))

/-- Lines 59–71: dynamic truncation of the HMAC value, reduction and formatting,
with the run-time checks of the index, slice and remainder operations. -/
def truncateAndFormat (hash : List Nat) (digits : Int) : Outcome :=
  if hash.length = 0 then .panic "runtime error: index out of range"
  else if hash.length < truncOffset hash + 4 then .panic "runtime error: slice bounds out of range"
  else
    let modDivisor := modDivisorLoop digits.toNat 1
    if modDivisor = 0 then .panic "runtime error: integer divide by zero"
    else
      let otp := Int.tmod (codeInt hash) modDivisor
      .ret (sprintfZeroPad digits.toNat otp) none

/-- The function `generateTOTP`, the clock read replaced by the argument `now`. -/
def generateTOTP (secret : String) (algorithm : HashingAlgorithm) (digits timeStep : Int)
    (now : Int) : Outcome :=
  if timeStep ≤ 0 then .ret "" (some "timestep has to be, timestep > 0")
  else if digits ≤ 0 then .ret "" (some "digits has to be, digits > 0")
  else
    let buf := counterBytes now timeStep
    match selectHash algorithm with
    | none => .ret "" (some "hashing not supported")
    | some hashFunc =>
      let hash := hmac hashFunc (stringBytes secret) buf
      truncateAndFormat hash digits

/-- The flag values after `flag.Parse()`. -/
structure Flags where
  secret : String
  algorithmStr : String
  digits : Int
  timeStep : Int
  deriving DecidableEq, Repr

/-- What `main` does, in order: a line written to standard output, a call of
`flag.Usage()`, a call of `generateTOTP` with its arguments, a panic. -/
inductive Event where
  | stdout (line : String)
  | usage
  | call (secret : String) (algorithm : HashingAlgorithm) (digits timeStep : Int)
  | panic (msg : String)
  deriving DecidableEq, Repr

/-- Lines 95–107: the `switch algorithmStr`; `none` is the `default` branch. -/
def parseAlgorithm (algorithmStr : String) : Option HashingAlgorithm :=
  if algorithmStr = "SHA1" then some SHA1
  else if algorithmStr = "SHA256" then some SHA256
  else if algorithmStr = "SHA512" then some SHA512
  else none

/-- The function `main` from line 89 on, on the parsed flags `fl`, the clock
reading `now`. -/
def main (fl : Flags) (now : Int) : List Event :=
  if fl.secret = "" then
    [.stdout "Error: secret (-secret) is mandatory.", .usage]
  else
    match parseAlgorithm fl.algorithmStr with
    | none =>
      [.stdout ("Error: Algorithm '" ++ fl.algorithmStr ++
        "' not supported. (SHA1, SHA256 o SHA512)."), .usage]
    | some algorithm =>
      .call fl.secret algorithm fl.digits fl.timeStep ::
      match generateTOTP fl.secret algorithm fl.digits fl.timeStep now with
      | .panic msg => [.panic msg]
      | .ret _ (some err) => [.stdout ("Error while generating OTP: " ++ err)]
      | .ret totpCode none =>
        [.stdout ("TOTP generated (Alg: " ++ toString algorithm ++ ", Digits: " ++
          toString fl.digits ++ ", Step: " ++ toString fl.timeStep ++ "): " ++ totpCode)]

/-! ## Reference definitions used to state the properties -/

/-- The decimal representation of `otp`, left-padded with `'0'` to `digits`
characters (step 6 of the specified algorithm). -/
def zeroPaddedDecimal (digits otp : Nat) : String :=
  String.mk (List.replicate (digits - (Nat.repr otp).length) '0') ++ Nat.repr otp

/-- The characters of a code are all decimal digits. -/
def allDecimal (code : String) : Prop :=
  ∀ c ∈ code.data, '0' ≤ c ∧ c ≤ '9'

/-- Value of a character of the standard base64 alphabet (RFC 4648 §4). -/
def base64Value (c : Char) : Option Nat :=
  if 'A' ≤ c ∧ c ≤ 'Z' then some (c.toNat - 65)
  else if 'a' ≤ c ∧ c ≤ 'z' then some (c.toNat - 71)
  else if '0' ≤ c ∧ c ≤ '9' then some (c.toNat + 4)
  else if c = '+' then some 62
  else if c = '/' then some 63
  else none

/-- Decodes padded base64 text, four characters to three bytes; `none` when the
text is not valid base64. -/
def base64DecodeChars : List Char → Option (List Nat)
  | [] => some []
  | [a, b, '=', '='] => do
    let x ← base64Value a
    let y ← base64Value b
    pure [(x * 4 + y / 16) % 256]
  | [a, b, c, '='] => do
    let x ← base64Value a
    let y ← base64Value b
    let z ← base64Value c
    let v := x * 1024 + y * 16 + z / 4
    pure [v / 256 % 256, v % 256]
  | a :: b :: c :: d :: rest => do
    let x ← base64Value a
    let y ← base64Value b
    let z ← base64Value c
    let t ← base64Value d
    let v := x * 262144 + y * 4096 + z * 64 + t
    let tl ← base64DecodeChars rest
    pure (v / 65536 % 256 :: v / 256 % 256 :: v % 256 :: tl)
  | _ => none

/-- The base64 decoding of a text (`base64.StdEncoding.DecodeString`). -/
def base64Decode (s : String) : Option (List Nat) :=
  base64DecodeChars s.data

/-- The HMAC-SHA-1 value of the RFC 6238 vector: key "12345678901234567890", counter 1. -/
def rfc6238Digest : List Nat :=
  hmac sha1New (stringBytes "12345678901234567890") (counterBytes 59 30)

/-- The number a code denotes when read as a decimal numeral. -/
def decimalValue (code : String) : Nat :=
  code.data.foldl (fun acc c => acc * 10 + (c.toNat - 48)) 0

/-! ## Digest sizes -/

theorem beBytes_length (n x : Nat) : (beBytes n x).length = n := by
  induction n with
  | zero => rfl
  | succ n ih => simp [beBytes, ih]

theorem beBytes_lt (n x : Nat) : ∀ b ∈ beBytes n x, b < 256 := by
  induction n with
  | zero => simp [beBytes]
  | succ n ih =>
    intro b hb
    simp only [beBytes, List.mem_cons] at hb
    rcases hb with rfl | hb
    · exact Nat.mod_lt _ (by norm_num)
    · exact ih b hb

theorem sha1_length (msg : List Nat) : (sha1 msg).length = 20 := by
  simp [sha1, Sha1State.bytes, beBytes_length]

theorem sha256_length (msg : List Nat) : (sha256 msg).length = 32 := by
  simp [sha256, sha2, Sha2State.bytes, beBytes_length, sha256Params]

theorem sha512_length (msg : List Nat) : (sha512 msg).length = 64 := by
  simp [sha512, sha2, Sha2State.bytes, beBytes_length, sha512Params]

/-- The three hash constructors the program can select. -/
theorem selectHash_eq_some {algorithm : HashingAlgorithm} {h : HashFunc}
    (hs : selectHash algorithm = some h) : h = sha1New ∨ h = sha256New ∨ h = sha512New := by
  unfold selectHash at hs
  split_ifs at hs <;> simp_all

theorem selectHash_supported {algorithm : HashingAlgorithm}
    (ha : algorithm = SHA1 ∨ algorithm = SHA256 ∨ algorithm = SHA512) :
    ∃ h, selectHash algorithm = some h := by
  rcases ha with rfl | rfl | rfl
  · exact ⟨sha1New, rfl⟩
  · exact ⟨sha256New, rfl⟩
  · exact ⟨sha512New, rfl⟩

/-- Every HMAC value the program computes has at least 20 bytes. -/
theorem hmac_length_ge {algorithm : HashingAlgorithm} {h : HashFunc}
    (hs : selectHash algorithm = some h) (key msg : List Nat) :
    20 ≤ (hmac h key msg).length := by
  rcases selectHash_eq_some hs with rfl | rfl | rfl
  · simp [hmac, sha1New, sha1_length]
  · simp [hmac, sha256New, sha256_length]
  · simp [hmac, sha512New, sha512_length]

theorem truncOffset_lt (hash : List Nat) : truncOffset hash < 16 := by
  have : truncOffset hash ≤ 0x0f := Nat.and_le_right
  omega

theorem codeInt_nonneg (hash : List Nat) : 0 ≤ codeInt hash := by
  simp [codeInt]

theorem codeInt_lt (hash : List Nat) : codeInt hash < 2 ^ 31 := by
  have h : beWord ((hash.drop (truncOffset hash)).take 4) &&& 0x7fffffff ≤ 0x7fffffff :=
    Nat.and_le_right
  simp only [codeInt]
  omega

/-! ## The divisor loop in 64-bit arithmetic -/

theorem wrapInt64_congr {a b : Int} (h : a % 2 ^ 64 = b % 2 ^ 64) :
    wrapInt64 a = wrapInt64 b := by
  have h2 : (a + 2 ^ 63) % 2 ^ 64 = (b + 2 ^ 63) % 2 ^ 64 := by
    rw [Int.add_emod, h, ← Int.add_emod]
  simp only [wrapInt64, h2]

theorem wrapInt64_emod (a : Int) : wrapInt64 a % 2 ^ 64 = a % 2 ^ 64 := by
  simp only [wrapInt64]
  omega

theorem wrapInt64_of_range {a : Int} (h1 : -2 ^ 63 ≤ a) (h2 : a < 2 ^ 63) :
    wrapInt64 a = a := by
  simp only [wrapInt64]
  omega

theorem wrapInt64_mul_left (a b : Int) : wrapInt64 (wrapInt64 a * b) = wrapInt64 (a * b) := by
  apply wrapInt64_congr
  rw [Int.mul_emod, wrapInt64_emod, ← Int.mul_emod]

/-- The loop computes `10 ^ n` reduced to 64 bits. -/
theorem modDivisorLoop_wrap (n : Nat) (m : Int) :
    modDivisorLoop n (wrapInt64 m) = wrapInt64 (m * 10 ^ n) := by
  induction n generalizing m with
  | zero => simp [modDivisorLoop]
  | succ n ih =>
    simp only [modDivisorLoop]
    rw [ih, mul_assoc, wrapInt64_mul_left, pow_succ]
    congr 1
    ring

theorem modDivisorLoop_one (n : Nat) : modDivisorLoop n 1 = wrapInt64 (10 ^ n) := by
  have h := modDivisorLoop_wrap n 1
  rw [wrapInt64_of_range (by norm_num) (by norm_num), one_mul] at h
  exact h

/-- Up to 18 digits the divisor is the power of ten itself. -/
theorem modDivisorLoop_small {n : Nat} (hn : n ≤ 18) : modDivisorLoop n 1 = 10 ^ n := by
  rw [modDivisorLoop_one]
  have h1 : (10 : Int) ^ n ≤ 10 ^ 18 := pow_le_pow_right₀ (by norm_num) hn
  have h2 : (0 : Int) < 10 ^ n := by positivity
  apply wrapInt64_of_range
  · omega
  · have : (10 : Int) ^ 18 < 2 ^ 63 := by norm_num
    omega

/-- From 64 digits on the divisor has wrapped to zero. -/
theorem modDivisorLoop_large {n : Nat} (hn : 64 ≤ n) : modDivisorLoop n 1 = 0 := by
  rw [modDivisorLoop_one]
  have hd : (2 : Int) ^ 64 ∣ 10 ^ n := by
    have h1 : (10 : Int) ^ n = 2 ^ 64 * (5 ^ 64 * 10 ^ (n - 64)) := by
      have : n = 64 + (n - 64) := by omega
      conv_lhs => rw [this, pow_add]
      have : (10 : Int) ^ 64 = 2 ^ 64 * 5 ^ 64 := by norm_num
      rw [this, mul_assoc]
    exact ⟨_, h1⟩
  have h0 : (10 : Int) ^ n % 2 ^ 64 = 0 := Int.emod_eq_zero_of_dvd hd
  have : wrapInt64 (10 ^ n) = wrapInt64 0 := wrapInt64_congr (by rw [h0]; rfl)
  rw [this]
  rfl

set_option maxRecDepth 100000 in
/-- Below 64 digits the divisor is not zero. -/
theorem modDivisorLoop_ne_zero {n : Nat} (hn : n < 64) : modDivisorLoop n 1 ≠ 0 := by
  have h : ∀ k, k < 64 → modDivisorLoop k 1 ≠ 0 := by decide
  exact h n hn

set_option maxRecDepth 100000 in
/-- From 10 digits on (and below 64) the divisor exceeds every 31-bit value in
absolute value. -/
theorem modDivisorLoop_natAbs_gt {n : Nat} (h10 : 10 ≤ n) (hn : n < 64) :
    2 ^ 31 ≤ (modDivisorLoop n 1).natAbs := by
  have h : ∀ k, k < 64 → 10 ≤ k → 2 ^ 31 ≤ (modDivisorLoop k 1).natAbs := by decide
  exact h n hn h10

/-! ## Truncated remainder of a non-negative dividend -/

theorem tmod_le_self {a : Int} (b : Int) (ha : 0 ≤ a) : Int.tmod a b ≤ a := by
  obtain ⟨m, rfl⟩ := Int.eq_ofNat_of_zero_le ha
  cases b with
  | ofNat n =>
    show ((m % n : Nat) : Int) ≤ m
    exact_mod_cast Nat.mod_le m n
  | negSucc n =>
    show ((m % (n + 1) : Nat) : Int) ≤ m
    exact_mod_cast Nat.mod_le m (n + 1)

theorem tmod_eq_self_of_natAbs_gt {a b : Int} (ha : 0 ≤ a) (hb : a.natAbs < b.natAbs) :
    Int.tmod a b = a := by
  obtain ⟨m, rfl⟩ := Int.eq_ofNat_of_zero_le ha
  cases b with
  | ofNat n =>
    show ((m % n : Nat) : Int) = m
    have : m < n := by simpa using hb
    rw [Nat.mod_eq_of_lt this]
  | negSucc n =>
    show ((m % (n + 1) : Nat) : Int) = m
    have : m < n + 1 := by simpa using hb
    rw [Nat.mod_eq_of_lt this]

/-! ## Formatting -/

theorem digit_char (d : Nat) (hd : d < 10) :
    Char.ofNat (48 + d) = Nat.digitChar d ∧ '0' ≤ Char.ofNat (48 + d) ∧ Char.ofNat (48 + d) ≤ '9' := by
  interval_cases d <;> decide

/-- The digit loop of `fmt` produces the digits of `Nat.toDigits`. -/
theorem fmtDigits_eq_toDigitsCore (fuel : Nat) : ∀ (u : Nat) (buf : List Char), u < fuel →
    fmtDigits fuel u buf = Nat.toDigitsCore 10 fuel u buf := by
  induction fuel with
  | zero => intro u buf h; omega
  | succ fuel ih =>
    intro u buf hu
    simp only [fmtDigits, Nat.toDigitsCore]
    by_cases h10 : 10 ≤ u
    · have hne : u / 10 ≠ 0 := by omega
      have hlt : u / 10 < fuel := by omega
      have hd : u - u / 10 * 10 = u % 10 := by omega
      rw [if_pos h10, if_neg hne, hd, (digit_char (u % 10) (Nat.mod_lt _ (by norm_num))).1]
      exact ih _ _ hlt
    · have hz : u / 10 = 0 := by omega
      have hm : u % 10 = u := by omega
      rw [if_neg h10, if_pos hz, hm, (digit_char u (by omega)).1]

theorem fmtDigits_eq_repr (u : Nat) : String.mk (fmtDigits (u + 1) u []) = Nat.repr u := by
  rw [fmtDigits_eq_toDigitsCore (u + 1) u [] (by omega)]
  rfl

theorem fmtDigits_length (fuel : Nat) : ∀ (u k : Nat) (buf : List Char), u < fuel →
    u < 10 ^ (k + 1) → (fmtDigits fuel u buf).length ≤ k + 1 + buf.length := by
  induction fuel with
  | zero => intro u k buf h; omega
  | succ fuel ih =>
    intro u k buf hu hk
    simp only [fmtDigits]
    by_cases h10 : 10 ≤ u
    · rw [if_pos h10]
      cases k with
      | zero => simp at hk; omega
      | succ k =>
        have hlt : u / 10 < fuel := by omega
        have hk2 : u / 10 < 10 ^ (k + 1) := by
          apply Nat.div_lt_of_lt_mul
          rw [pow_succ] at hk
          omega
        have := ih (u / 10) k (Char.ofNat (48 + (u - u / 10 * 10)) :: buf) hlt hk2
        simp only [List.length_cons] at this
        omega
    · rw [if_neg h10]
      simp only [List.length_cons]
      omega

theorem fmtDigits_decimal (fuel : Nat) : ∀ (u : Nat) (buf : List Char),
    (∀ c ∈ buf, '0' ≤ c ∧ c ≤ '9') → ∀ c ∈ fmtDigits fuel u buf, '0' ≤ c ∧ c ≤ '9' := by
  induction fuel with
  | zero => intro u buf hb; simpa [fmtDigits] using hb
  | succ fuel ih =>
    intro u buf hb
    simp only [fmtDigits]
    by_cases h10 : 10 ≤ u
    · rw [if_pos h10]
      apply ih
      intro c hc
      rcases List.mem_cons.1 hc with rfl | hc
      · exact (digit_char _ (by omega)).2
      · exact hb c hc
    · rw [if_neg h10]
      intro c hc
      rcases List.mem_cons.1 hc with rfl | hc
      · exact (digit_char _ (by omega)).2
      · exact hb c hc

/-- On a non-negative value, `%0Nd` is the zero-padded decimal representation. -/
theorem sprintfZeroPad_ofNat (wid u : Nat) :
    sprintfZeroPad wid (u : Int) = zeroPaddedDecimal wid u := by
  have hneg : ¬ ((u : Int) < 0) := by omega
  have hr := fmtDigits_eq_repr u
  simp only [sprintfZeroPad, zeroPaddedDecimal, hneg, decide_False, Int.natAbs_ofNat,
    Bool.false_eq_true, if_false, ← hr]
  rfl

theorem zeroPaddedDecimal_length {wid u : Nat} (hw : 0 < wid) (hu : u < 10 ^ wid) :
    (zeroPaddedDecimal wid u).length = wid := by
  obtain ⟨k, rfl⟩ : ∃ k, wid = k + 1 := ⟨wid - 1, by omega⟩
  have hl := fmtDigits_length (u + 1) u k [] (by omega) hu
  have hr : (Nat.repr u).length = (fmtDigits (u + 1) u []).length := by
    rw [← fmtDigits_eq_repr]; rfl
  simp only [List.length_nil] at hl
  simp only [zeroPaddedDecimal, String.length_append, String.length_mk, List.length_replicate, hr]
  omega

theorem zeroPaddedDecimal_allDecimal (wid u : Nat) : allDecimal (zeroPaddedDecimal wid u) := by
  intro c hc
  simp only [zeroPaddedDecimal, String.data_append, List.mem_append] at hc
  rcases hc with hc | hc
  · have := List.eq_of_mem_replicate hc
    subst this
    decide
  · rw [← fmtDigits_eq_repr] at hc
    exact fmtDigits_decimal (u + 1) u [] (by simp) c hc

/-! ## The bytes of a text -/

theorem utf8EncodeChar_ascii (c : Char) (h : c.toNat < 128) :
    (String.utf8EncodeChar c).map (fun b => b.toNat) = [c.toNat] := by
  have hv : c.val ≤ 0x7f := by
    show c.val.toNat ≤ 127
    have : c.toNat = c.val.toNat := rfl
    omega
  have h2 : c.val.toUInt8.toNat = c.toNat := by
    show c.val.toNat % 256 = c.val.toNat
    have : c.toNat = c.val.toNat := rfl
    omega
  simp only [String.utf8EncodeChar, hv, if_true, List.map_cons, List.map_nil, h2]

theorem flatMap_utf8_ascii (l : List Char) (h : ∀ c ∈ l, c.toNat < 128) :
    (l.flatMap String.utf8EncodeChar).map (fun b => b.toNat) = l.map Char.toNat := by
  induction l with
  | nil => rfl
  | cons c l ih =>
    have hc := h c (List.mem_cons_self _ _)
    have hl : ∀ d ∈ l, d.toNat < 128 := fun d hd => h d (List.mem_cons_of_mem _ hd)
    simp only [List.flatMap_cons, List.map_append, List.map_cons, utf8EncodeChar_ascii c hc,
      ih hl]
    rfl

/-- The bytes of an ASCII text are its character codes. -/
theorem stringBytes_ascii (s : String) (h : ∀ c ∈ s.data, c.toNat < 128) :
    stringBytes s = s.data.map Char.toNat :=
  flatMap_utf8_ascii s.data h

/-! ## The input layer -/

theorem parseAlgorithm_eq_some {name : String} {a : HashingAlgorithm}
    (h : parseAlgorithm name = some a) :
    (name = "SHA1" ∧ a = SHA1) ∨ (name = "SHA256" ∧ a = SHA256) ∨
      (name = "SHA512" ∧ a = SHA512) := by
  unfold parseAlgorithm at h
  split_ifs at h with h1 h2 h3
  · exact Or.inl ⟨h1, (Option.some.inj h).symm⟩
  · exact Or.inr (Or.inl ⟨h2, (Option.some.inj h).symm⟩)
  · exact Or.inr (Or.inr ⟨h3, (Option.some.inj h).symm⟩)

theorem parseAlgorithm_eq_none {name : String} (h1 : name ≠ "SHA1") (h2 : name ≠ "SHA256")
    (h3 : name ≠ "SHA512") : parseAlgorithm name = none := by
  simp only [parseAlgorithm, h1, h2, h3, if_false]

/-! ## The core function -/

/-- With valid parameters the function is the HMAC of the counter followed by
truncation and formatting. -/
theorem generateTOTP_valid {secret : String} {algorithm : HashingAlgorithm}
    {digits timeStep : Int} (now : Int) {h : HashFunc} (hts : 0 < timeStep) (hd : 0 < digits)
    (hs : selectHash algorithm = some h) :
    generateTOTP secret algorithm digits timeStep now =
      truncateAndFormat (hmac h (stringBytes secret) (counterBytes now timeStep)) digits := by
  have h1 : ¬ timeStep ≤ 0 := by omega
  have h2 : ¬ digits ≤ 0 := by omega
  simp only [generateTOTP, h1, h2, if_false, hs]

/-- On a digest of at least 20 bytes and fewer than 64 digits, no run-time check fails. -/
theorem truncateAndFormat_ret {hash : List Nat} {digits : Int} (hl : 20 ≤ hash.length)
    (hd : digits.toNat < 64) :
    truncateAndFormat hash digits =
      .ret (sprintfZeroPad digits.toNat
        (Int.tmod (codeInt hash) (modDivisorLoop digits.toNat 1))) none := by
  have h1 : ¬ hash.length = 0 := by omega
  have h2 : ¬ hash.length < truncOffset hash + 4 := by
    have := truncOffset_lt hash
    omega
  simp only [truncateAndFormat, h1, h2, if_false, modDivisorLoop_ne_zero hd]

/-- On a digest of at least 20 bytes and 64 digits or more, the remainder
operation divides by zero. -/
theorem truncateAndFormat_panic {hash : List Nat} {digits : Int} (hl : 20 ≤ hash.length)
    (hd : 64 ≤ digits.toNat) :
    truncateAndFormat hash digits = .panic "runtime error: integer divide by zero" := by
  have h1 : ¬ hash.length = 0 := by omega
  have h2 : ¬ hash.length < truncOffset hash + 4 := by
    have := truncOffset_lt hash
    omega
  simp only [truncateAndFormat, h1, h2, if_false, modDivisorLoop_large hd, if_true]

/-- The reduced value `otp` as a natural number below `10 ^ digits`, for 1 to 63 digits. -/
theorem otp_bounds (hash : List Nat) {n : Nat} (hn : n < 64) (hpos : 0 < n) :
    ∃ otp : Nat, Int.tmod (codeInt hash) (modDivisorLoop n 1) = (otp : Int) ∧ otp < 10 ^ n ∧
      otp < 2 ^ 31 := by
  have h0 := codeInt_nonneg hash
  have h31 := codeInt_lt hash
  have hnn := Int.tmod_nonneg (modDivisorLoop n 1) h0
  have hle := tmod_le_self (modDivisorLoop n 1) h0
  obtain ⟨otp, ho⟩ := Int.eq_ofNat_of_zero_le hnn
  refine ⟨otp, ho, ?_, by omega⟩
  by_cases h18 : n ≤ 18
  · have hlt : Int.tmod (codeInt hash) (modDivisorLoop n 1) < modDivisorLoop n 1 := by
      apply Int.tmod_lt_of_pos
      rw [modDivisorLoop_small h18]
      positivity
    rw [ho, modDivisorLoop_small h18] at hlt
    exact_mod_cast hlt
  · have h1 : (2 : Nat) ^ 31 < 10 ^ 10 := by norm_num
    have h2 : (10 : Nat) ^ 10 ≤ 10 ^ n := Nat.pow_le_pow_right (by norm_num) (by omega)
    omega

/-- For 1 to 63 digits and a supported algorithm the function returns a code of
exactly `digits` decimal characters and a nil error. -/
theorem generateTOTP_ok (secret : String) {algorithm : HashingAlgorithm}
    {digits timeStep : Int} (now : Int) {h : HashFunc} (hts : 0 < timeStep) (hd : 0 < digits)
    (hd63 : digits ≤ 63) (hs : selectHash algorithm = some h) :
    ∃ code, generateTOTP secret algorithm digits timeStep now = .ret code none ∧
      code.length = digits.toNat ∧ allDecimal code := by
  have hn : digits.toNat < 64 := by omega
  have hpos : 0 < digits.toNat := by omega
  rw [generateTOTP_valid now hts hd hs, truncateAndFormat_ret (hmac_length_ge hs _ _) hn]
  obtain ⟨otp, ho, hlt, _⟩ :=
    otp_bounds (hmac h (stringBytes secret) (counterBytes now timeStep)) hn hpos
  rw [ho, sprintfZeroPad_ofNat]
  exact ⟨_, rfl, zeroPaddedDecimal_length hpos hlt, zeroPaddedDecimal_allDecimal _ _⟩

/-! ## Digest bytes and the counter encoding -/

theorem sha1_byte_lt (msg : List Nat) : ∀ b ∈ sha1 msg, b < 256 := by
  intro b hb
  simp only [sha1, Sha1State.bytes, List.mem_append] at hb
  rcases hb with (((hb | hb) | hb) | hb) | hb <;> exact beBytes_lt _ _ b hb

theorem sha2_byte_lt (p : Sha2Params) (msg : List Nat) : ∀ b ∈ sha2 p msg, b < 256 := by
  intro b hb
  simp only [sha2, Sha2State.bytes, List.mem_append] at hb
  rcases hb with ((((((hb | hb) | hb) | hb) | hb) | hb) | hb) | hb <;>
    exact beBytes_lt _ _ b hb

/-- Every byte of an HMAC value the program computes is below 256. -/
theorem hmac_byte_lt {algorithm : HashingAlgorithm} {h : HashFunc}
    (hs : selectHash algorithm = some h) (key msg : List Nat) :
    ∀ b ∈ hmac h key msg, b < 256 := by
  rcases selectHash_eq_some hs with rfl | rfl | rfl
  · exact sha1_byte_lt _
  · exact sha2_byte_lt _ _
  · exact sha2_byte_lt _ _

/-- The HMAC value has the size of the selected hash: 20, 32 or 64 bytes. -/
theorem hmac_length_eq {algorithm : HashingAlgorithm} {h : HashFunc}
    (hs : selectHash algorithm = some h) (key msg : List Nat) :
    (algorithm = SHA1 ∧ (hmac h key msg).length = 20) ∨
    (algorithm = SHA256 ∧ (hmac h key msg).length = 32) ∨
    (algorithm = SHA512 ∧ (hmac h key msg).length = 64) := by
  unfold selectHash at hs
  split_ifs at hs with h1 h2 h3
  · obtain rfl := Option.some.inj hs
    exact Or.inl ⟨h1, by simp [hmac, sha1New, sha1_length]⟩
  · obtain rfl := Option.some.inj hs
    exact Or.inr (Or.inl ⟨h2, by simp [hmac, sha256New, sha256_length]⟩)
  · obtain rfl := Option.some.inj hs
    exact Or.inr (Or.inr ⟨h3, by simp [hmac, sha512New, sha512_length]⟩)

/-- The 8 bytes of a value below `2 ^ 64`, most significant first. -/
theorem beBytes_eight (x : Nat) :
    beBytes 8 x = [x / 2 ^ 56 % 256, x / 2 ^ 48 % 256, x / 2 ^ 40 % 256, x / 2 ^ 32 % 256,
      x / 2 ^ 24 % 256, x / 2 ^ 16 % 256, x / 2 ^ 8 % 256, x % 256] := by
  simp [beBytes, Nat.shiftRight_eq_div_pow]

theorem beBytes_eight_sum (x : Nat) (hx : x < 2 ^ 64) :
    x / 2 ^ 56 % 256 * 256 ^ 7 + x / 2 ^ 48 % 256 * 256 ^ 6 + x / 2 ^ 40 % 256 * 256 ^ 5 +
      x / 2 ^ 32 % 256 * 256 ^ 4 + x / 2 ^ 24 % 256 * 256 ^ 3 + x / 2 ^ 16 % 256 * 256 ^ 2 +
      x / 2 ^ 8 % 256 * 256 + x % 256 = x := by
  norm_num at hx ⊢
  omega

/-- Four consecutive elements of a list as a slice. -/
theorem drop_take_four (l : List Nat) : ∀ n, n + 4 ≤ l.length →
    (l.drop n).take 4 = [l.getD n 0, l.getD (n + 1) 0, l.getD (n + 2) 0, l.getD (n + 3) 0] := by
  induction l with
  | nil => intro n h; simp at h
  | cons a l ih =>
    intro n h
    cases n with
    | zero =>
      match l, h with
      | b :: c :: d :: rest, _ => simp
    | succ n =>
      have := ih n (by simpa using h)
      simpa [List.getD_cons_succ, Nat.add_right_comm] using this

theorem beWord_four (a b c d : Nat) (ha : a < 256) (hb : b < 256) (hc : c < 256)
    (hd : d < 256) : beWord [a, b, c, d] = a * 2 ^ 24 + b * 2 ^ 16 + c * 2 ^ 8 + d := by
  simp only [beWord, List.foldl, Nat.mod_eq_of_lt ha, Nat.mod_eq_of_lt hb, Nat.mod_eq_of_lt hc,
    Nat.mod_eq_of_lt hd]
  ring

theorem mask31_four (a b c d : Nat) (hb : b < 256) (hc : c < 256) (hd : d < 256) :
    (a * 2 ^ 24 + b * 2 ^ 16 + c * 2 ^ 8 + d) &&& 0x7fffffff =
      (a &&& 0x7F) * 2 ^ 24 + b * 2 ^ 16 + c * 2 ^ 8 + d := by
  have h1 : (a * 2 ^ 24 + b * 2 ^ 16 + c * 2 ^ 8 + d) &&& 0x7fffffff =
      (a * 2 ^ 24 + b * 2 ^ 16 + c * 2 ^ 8 + d) % 2 ^ 31 :=
    Nat.and_pow_two_sub_one_eq_mod _ 31
  have h2 : a &&& 0x7F = a % 2 ^ 7 := Nat.and_pow_two_sub_one_eq_mod _ 7
  rw [h1, h2]
  norm_num
  omega

/-! ## The value of a code -/

theorem digit_char_value (d : Nat) (hd : d < 10) : (Char.ofNat (48 + d)).toNat - 48 = d := by
  interval_cases d <;> rfl

theorem fmtDigits_append (fuel : Nat) : ∀ (u : Nat) (buf : List Char),
    fmtDigits fuel u buf = fmtDigits fuel u [] ++ buf := by
  induction fuel with
  | zero => intro u buf; rfl
  | succ fuel ih =>
    intro u buf
    simp only [fmtDigits]
    by_cases h10 : 10 ≤ u
    · rw [if_pos h10, if_pos h10, ih _ (_ :: buf), ih _ [_]]
      simp
    · rw [if_neg h10, if_neg h10]
      rfl

/-- Reading back the digits written by `fmt` gives the number. -/
theorem fmtDigits_value (fuel : Nat) : ∀ u : Nat, u < fuel →
    (fmtDigits fuel u []).foldl (fun acc c => acc * 10 + (c.toNat - 48)) 0 = u := by
  induction fuel with
  | zero => intro u h; omega
  | succ fuel ih =>
    intro u hu
    simp only [fmtDigits]
    by_cases h10 : 10 ≤ u
    · rw [if_pos h10, fmtDigits_append, List.foldl_append, ih _ (by omega)]
      simp only [List.foldl]
      rw [digit_char_value _ (by omega)]
      omega
    · rw [if_neg h10]
      simp only [List.foldl]
      rw [digit_char_value _ (by omega)]
      omega

theorem foldl_zeros (k : Nat) :
    (List.replicate k '0').foldl (fun acc c => acc * 10 + (c.toNat - 48)) 0 = 0 := by
  induction k with
  | zero => rfl
  | succ k ih =>
    rw [List.replicate_succ, List.foldl_cons]
    exact ih

theorem repr_data (u : Nat) : (Nat.repr u).data = fmtDigits (u + 1) u [] := by
  rw [← fmtDigits_eq_repr]

/-- The zero-padded decimal representation denotes the number it was made from. -/
theorem decimalValue_zeroPaddedDecimal (wid u : Nat) :
    decimalValue (zeroPaddedDecimal wid u) = u := by
  simp only [decimalValue, zeroPaddedDecimal, String.data_append, List.foldl_append,
    foldl_zeros, repr_data]
  exact fmtDigits_value (u + 1) u (by omega)

/-- A number below `10 ^ 10` padded to `wid` characters starts with `wid - 10` zeros. -/
theorem zeroPaddedDecimal_leading_zeros {wid u : Nat} (hu : u < 10 ^ 10) :
    ∀ c ∈ (zeroPaddedDecimal wid u).data.take (wid - 10), c = '0' := by
  have hl := fmtDigits_length (u + 1) u 9 [] (by omega) hu
  simp only [List.length_nil] at hl
  have hr : (Nat.repr u).length ≤ 10 := by
    show (Nat.repr u).data.length ≤ 10
    rw [repr_data]
    omega
  intro c hc
  simp only [zeroPaddedDecimal, String.data_append] at hc
  rw [List.take_append_of_le_length (by rw [List.length_replicate]; omega)] at hc
  exact List.eq_of_mem_replicate (List.mem_of_mem_take hc)

/-! ## Calls made by `main` -/

/-- Truncation and formatting never return an error value. -/
theorem truncateAndFormat_no_error (hash : List Nat) (digits : Int) (code err : String) :
    truncateAndFormat hash digits ≠ .ret code (some err) := by
  simp only [truncateAndFormat]
  split_ifs <;> simp

/-- A call of `generateTOTP` recorded by `main` carries the flags and a parsed algorithm. -/
theorem main_call_mem {fl : Flags} {now : Int} {s : String} {a : HashingAlgorithm}
    {d t : Int} (hmem : Event.call s a d t ∈ main fl now) :
    fl.secret ≠ "" ∧ s = fl.secret ∧ parseAlgorithm fl.algorithmStr = some a ∧
      d = fl.digits ∧ t = fl.timeStep := by
  unfold main at hmem
  by_cases hsec : fl.secret = ""
  · simp [hsec] at hmem
  · rw [if_neg hsec] at hmem
    cases hp : parseAlgorithm fl.algorithmStr with
    | none => simp [hp] at hmem
    | some alg =>
      simp only [hp] at hmem
      rcases List.mem_cons.1 hmem with heq | htail
      · injection heq with e1 e2 e3 e4
        subst e2
        exact ⟨hsec, e1, rfl, e3, e4⟩
      · exfalso
        cases hg : generateTOTP fl.secret alg fl.digits fl.timeStep now with
        | panic msg => simp [hg] at htail
        | ret code err =>
          cases err with
          | none => simp [hg] at htail
          | some e => simp [hg] at htail

/-- With a supported algorithm the only error values are the two parameter errors. -/
theorem generateTOTP_error_cases {secret : String} {algorithm : HashingAlgorithm}
    {digits timeStep now : Int} {code err : String}
    (ha : algorithm = SHA1 ∨ algorithm = SHA256 ∨ algorithm = SHA512)
    (hr : generateTOTP secret algorithm digits timeStep now = .ret code (some err)) :
    (timeStep ≤ 0 ∧ err = "timestep has to be, timestep > 0") ∨
      (0 < timeStep ∧ digits ≤ 0 ∧ err = "digits has to be, digits > 0") := by
  by_cases hts : timeStep ≤ 0
  · simp only [generateTOTP, hts, if_true] at hr
    injection hr with _ e
    exact Or.inl ⟨hts, (Option.some.inj e).symm⟩
  · by_cases hd : digits ≤ 0
    · simp only [generateTOTP, hts, hd, if_true, if_false] at hr
      injection hr with _ e
      exact Or.inr ⟨by omega, hd, (Option.some.inj e).symm⟩
    · exfalso
      obtain ⟨h, hs⟩ := selectHash_supported ha
      rw [generateTOTP_valid now (by omega) (by omega) hs] at hr
      exact truncateAndFormat_no_error _ _ _ _ hr

/-! ## Known answers of the embedded primitives -/

set_option maxRecDepth 100000 in
/-- The FIPS 180 example digests of the message "abc". -/
theorem sha_abc_vectors :
    sha1 (stringBytes "abc") =
      [169, 153, 62, 54, 71, 6, 129, 106, 186, 62, 37, 113, 120, 80, 194, 108, 156, 208, 216,
      157] ∧
    sha256 (stringBytes "abc") =
      [186, 120, 22, 191, 143, 1, 207, 234, 65, 65, 64, 222, 93, 174, 34, 35, 176, 3, 97, 163,
      150, 23, 122, 156, 180, 16, 255, 97, 242, 0, 21, 173] ∧
    sha512 (stringBytes "abc") =
      [221, 175, 53, 161, 147, 97, 122, 186, 204, 65, 115, 73, 174, 32, 65, 49, 18, 230, 250,
      78, 137, 169, 126, 162, 10, 158, 238, 230, 75, 85, 211, 154, 33, 146, 153, 42, 39, 79,
      193, 168, 54, 186, 60, 35, 163, 254, 235, 189, 69, 77, 68, 35, 100, 60, 232, 14, 42,
      154, 201, 79, 165, 76, 164, 159] := by
  decide

set_option maxRecDepth 100000 in
/-- The second HMAC-SHA-1 test case of RFC 2202. -/
theorem hmac_sha1_rfc2202_vector :
    hmac sha1New (stringBytes "Jefe") (stringBytes "what do ya want for nothing?") =
      [239, 252, 223, 106, 229, 235, 47, 162, 210, 116, 22, 213, 241, 132, 223, 156, 37, 154,
      124, 121] := by
  decide

set_option maxRecDepth 100000 in
/-- The RFC 6238 vectors at time 59 for SHA-256 and SHA-512, 8 digits. -/
theorem generateTOTP_rfc6238_sha2_vectors :
    generateTOTP "12345678901234567890123456789012" SHA256 8 30 59 = .ret "46119246" none ∧
    generateTOTP "1234567890123456789012345678901234567890123456789012345678901234"
      SHA512 8 30 59 = .ret "90693936" none := by
  decide

/-! ## The claims -/

set_option maxRecDepth 100000 in
/-- C1 (the code falls short of it): a call with valid parameters should return
a code of exactly `digits` decimal characters, but with `digits = 64` the call
on the RFC 6238 secret returns no code at all: the divisor has wrapped to zero
and the remainder operation panics. -/
theorem generateTOTP_digits64_returns_no_code :
    generateTOTP "12345678901234567890" SHA1 64 30 59 =
      .panic "runtime error: integer divide by zero" := by
  decide

set_option maxRecDepth 100000 in
/-- C2: the RFC 6238 known-answer vector.  The secret "12345678901234567890" is
keyed as its 20 ASCII bytes; at `now = 59` with `timeStep = 30` the counter is
`1`, encoded as `00 00 00 00 00 00 00 01`; with SHA1 and 6 digits the function
returns the code "287082" and a nil error. -/
theorem generateTOTP_rfc6238_sha1_vector :
    Int.tdiv 59 30 = 1 ∧
    counterBytes 59 30 = [0, 0, 0, 0, 0, 0, 0, 1] ∧
    stringBytes "12345678901234567890" =
      [49, 50, 51, 52, 53, 54, 55, 56, 57, 48, 49, 50, 51, 52, 53, 54, 55, 56, 57, 48] ∧
    generateTOTP "12345678901234567890" SHA1 6 30 59 = .ret "287082" none := by
  decide

/-- C3: invalid parameters are rejected with an error and the empty string as
code: `timeStep <= 0` gives the time-step error; otherwise `digits <= 0` gives
the digits error; otherwise an algorithm value that is none of SHA1, SHA256,
SHA512 gives the unsupported-hashing error. -/
theorem generateTOTP_rejects_invalid (secret : String) (algorithm : HashingAlgorithm)
    (digits timeStep now : Int) :
    (timeStep ≤ 0 → generateTOTP secret algorithm digits timeStep now =
      .ret "" (some "timestep has to be, timestep > 0")) ∧
    (0 < timeStep → digits ≤ 0 → generateTOTP secret algorithm digits timeStep now =
      .ret "" (some "digits has to be, digits > 0")) ∧
    (0 < timeStep → 0 < digits → algorithm ≠ SHA1 → algorithm ≠ SHA256 → algorithm ≠ SHA512 →
      generateTOTP secret algorithm digits timeStep now =
        .ret "" (some "hashing not supported")) := by
  refine ⟨?_, ?_, ?_⟩
  · intro h
    simp only [generateTOTP, h, if_true]
  · intro h1 h2
    have h1 : ¬ timeStep ≤ 0 := by omega
    simp only [generateTOTP, h1, h2, if_true, if_false]
  · intro h1 h2 a1 a2 a3
    have h1 : ¬ timeStep ≤ 0 := by omega
    have h2 : ¬ digits ≤ 0 := by omega
    have hs : selectHash algorithm = none := by
      simp only [selectHash, a1, a2, a3, if_false]
    simp only [generateTOTP, h1, h2, if_false, hs]

/-- C3 at the boundary values: time steps 0 and -1, digits 0 and -1, and the
algorithm value 3. -/
theorem generateTOTP_rejects_invalid_witness :
    generateTOTP "12345678901234567890" SHA1 6 0 59 =
      .ret "" (some "timestep has to be, timestep > 0") ∧
    generateTOTP "12345678901234567890" SHA1 6 (-1) 59 =
      .ret "" (some "timestep has to be, timestep > 0") ∧
    generateTOTP "12345678901234567890" SHA1 0 30 59 =
      .ret "" (some "digits has to be, digits > 0") ∧
    generateTOTP "12345678901234567890" SHA1 (-1) 30 59 =
      .ret "" (some "digits has to be, digits > 0") ∧
    generateTOTP "12345678901234567890" 3 6 30 59 = .ret "" (some "hashing not supported") :=
  ⟨(generateTOTP_rejects_invalid "12345678901234567890" SHA1 6 0 59).1 (by decide),
   (generateTOTP_rejects_invalid "12345678901234567890" SHA1 6 (-1) 59).1 (by decide),
   (generateTOTP_rejects_invalid "12345678901234567890" SHA1 0 30 59).2.1 (by decide) (by decide),
   (generateTOTP_rejects_invalid "12345678901234567890" SHA1 (-1) 30 59).2.1 (by decide)
     (by decide),
   (generateTOTP_rejects_invalid "12345678901234567890" 3 6 30 59).2.2 (by decide) (by decide)
     (by decide) (by decide) (by decide)⟩

/-- C4 (the code falls short of it): the function should have no failure mode
besides the three validation errors, but for every secret, supported algorithm,
positive time step and instant, every `digits >= 64` makes the divisor wrap to
zero and the call panic with a division by zero. -/
theorem generateTOTP_panics_from_64_digits (secret : String) (algorithm : HashingAlgorithm)
    (digits timeStep now : Int) (hts : 0 < timeStep) (hd : 64 ≤ digits)
    (ha : algorithm = SHA1 ∨ algorithm = SHA256 ∨ algorithm = SHA512) :
    generateTOTP secret algorithm digits timeStep now =
      .panic "runtime error: integer divide by zero" := by
  obtain ⟨h, hs⟩ := selectHash_supported ha
  rw [generateTOTP_valid now hts (by omega) hs]
  exact truncateAndFormat_panic (hmac_length_ge hs _ _) (by omega)

/-- C4 at SHA256 with 100 digits. -/
theorem generateTOTP_panics_from_64_digits_witness :
    (0 : Int) < 30 ∧ (64 : Int) ≤ 100 ∧
    generateTOTP "12345678901234567890" SHA256 100 30 59 =
      .panic "runtime error: integer divide by zero" :=
  ⟨by decide, by decide,
   generateTOTP_panics_from_64_digits "12345678901234567890" SHA256 100 30 59 (by decide)
     (by decide) (Or.inr (Or.inl rfl))⟩

/-- C5: for 1 to 18 digits, a supported algorithm and a positive time step, the
returned code is the decimal representation of `binCode mod 10^digits`
left-padded with `'0'` to exactly `digits` characters, `binCode` being the
31-bit integer truncated from the HMAC value; the value 42 with 6 digits is
rendered "000042". -/
theorem generateTOTP_code_is_padded_remainder (secret : String)
    (algorithm : HashingAlgorithm) (digits timeStep now : Int) (hts : 0 < timeStep)
    (h1 : 1 ≤ digits) (h18 : digits ≤ 18)
    (ha : algorithm = SHA1 ∨ algorithm = SHA256 ∨ algorithm = SHA512) :
    ∃ (h : HashFunc) (binCode : Nat), selectHash algorithm = some h ∧
      (binCode : Int) = codeInt (hmac h (stringBytes secret) (counterBytes now timeStep)) ∧
      binCode < 2 ^ 31 ∧
      generateTOTP secret algorithm digits timeStep now =
        .ret (zeroPaddedDecimal digits.toNat (binCode % 10 ^ digits.toNat)) none ∧
      ((zeroPaddedDecimal digits.toNat (binCode % 10 ^ digits.toNat)).length : Int) = digits ∧
      sprintfZeroPad 6 42 = "000042" := by
  obtain ⟨h, hs⟩ := selectHash_supported ha
  have h0 := codeInt_nonneg (hmac h (stringBytes secret) (counterBytes now timeStep))
  have h31 := codeInt_lt (hmac h (stringBytes secret) (counterBytes now timeStep))
  obtain ⟨binCode, hb⟩ := Int.eq_ofNat_of_zero_le h0
  have hn : digits.toNat ≤ 18 := by omega
  have hpos : 0 < digits.toNat := by omega
  have hlt : binCode % 10 ^ digits.toNat < 10 ^ digits.toNat :=
    Nat.mod_lt _ (by positivity)
  refine ⟨h, binCode, hs, hb.symm, by omega, ?_, ?_, by decide⟩
  · rw [generateTOTP_valid now hts (by omega) hs,
      truncateAndFormat_ret (hmac_length_ge hs _ _) (by omega), modDivisorLoop_small hn, hb]
    have hm : Int.tmod (binCode : Int) (10 ^ digits.toNat) =
        ((binCode % 10 ^ digits.toNat : Nat) : Int) := by
      rw [Int.ofNat_tmod]
      push_cast
      rfl
    rw [hm, sprintfZeroPad_ofNat]
  · rw [zeroPaddedDecimal_length hpos hlt]
    omega

/-- C5 at SHA512 with 18 digits. -/
theorem generateTOTP_code_is_padded_remainder_witness :
    ∃ (h : HashFunc) (binCode : Nat), selectHash SHA512 = some h ∧
      (binCode : Int) = codeInt (hmac h (stringBytes "secret") (counterBytes 59 30)) ∧
      binCode < 2 ^ 31 ∧
      generateTOTP "secret" SHA512 18 30 59 =
        .ret (zeroPaddedDecimal (18 : Int).toNat (binCode % 10 ^ (18 : Int).toNat)) none ∧
      ((zeroPaddedDecimal (18 : Int).toNat (binCode % 10 ^ (18 : Int).toNat)).length : Int)
        = 18 ∧
      sprintfZeroPad 6 42 = "000042" :=
  generateTOTP_code_is_padded_remainder "secret" SHA512 18 30 59 (by decide) (by decide)
    (by decide) (Or.inr (Or.inr rfl))

/-- C6: window stability and determinism.  For a positive time step, two
non-negative instants with the same `floor(now / timeStep)` give the same
result; and two calls with identical arguments give the same result. -/
theorem generateTOTP_window_stable (secret : String) (algorithm : HashingAlgorithm)
    (digits timeStep now1 now2 : Int) :
    (0 < timeStep → 0 ≤ now1 → 0 ≤ now2 →
      Int.fdiv now1 timeStep = Int.fdiv now2 timeStep →
      generateTOTP secret algorithm digits timeStep now1 =
        generateTOTP secret algorithm digits timeStep now2) ∧
    (now1 = now2 →
      generateTOTP secret algorithm digits timeStep now1 =
        generateTOTP secret algorithm digits timeStep now2) := by
  refine ⟨?_, ?_⟩
  · intro hts h1 h2 hw
    rw [Int.fdiv_eq_tdiv h1 (by omega), Int.fdiv_eq_tdiv h2 (by omega)] at hw
    simp only [generateTOTP, counterBytes, hw]
  · intro h
    rw [h]

set_option maxRecDepth 100000 in
/-- C6 at the instants 30 and 59 of the window of counter 1 (step 30). -/
theorem generateTOTP_window_stable_witness :
    Int.fdiv 30 30 = Int.fdiv 59 30 ∧
    generateTOTP "12345678901234567890" SHA1 6 30 30 =
      generateTOTP "12345678901234567890" SHA1 6 30 59 :=
  ⟨by decide,
   (generateTOTP_window_stable "12345678901234567890" SHA1 6 30 30 59).1 (by decide) (by decide)
     (by decide) (by decide)⟩

/-- C7: the HMAC key is the byte sequence of the secret text as given.  With
valid parameters the result is the truncation and formatting of the HMAC of the
counter bytes keyed with `[]byte(secret)`, which for an ASCII text is the list
of its character codes; nothing is decoded or validated, and for up to 63
digits every text yields a code and no error. -/
theorem generateTOTP_key_is_secret_bytes (secret : String) (algorithm : HashingAlgorithm)
    (digits timeStep now : Int) (h : HashFunc) (hts : 0 < timeStep) (hd : 0 < digits)
    (hs : selectHash algorithm = some h) :
    generateTOTP secret algorithm digits timeStep now =
      truncateAndFormat (hmac h (stringBytes secret) (counterBytes now timeStep)) digits ∧
    ((∀ c ∈ secret.data, c.toNat < 128) → stringBytes secret = secret.data.map Char.toNat) ∧
    (digits ≤ 63 → ∃ code, generateTOTP secret algorithm digits timeStep now = .ret code none) := by
  refine ⟨generateTOTP_valid now hts hd hs, stringBytes_ascii secret, ?_⟩
  intro h63
  obtain ⟨code, hc, _⟩ := generateTOTP_ok secret now hts hd h63 hs
  exact ⟨code, hc⟩

set_option maxRecDepth 100000 in
/-- C7 at a secret that is not valid base32: its key is its 11 ASCII bytes. -/
theorem generateTOTP_key_is_secret_bytes_witness :
    selectHash SHA1 = some sha1New ∧
    generateTOTP "not base32!" SHA1 6 30 59 =
      truncateAndFormat (hmac sha1New (stringBytes "not base32!") (counterBytes 59 30)) 6 ∧
    stringBytes "not base32!" = [110, 111, 116, 32, 98, 97, 115, 101, 51, 50, 33] ∧
    (∃ code, generateTOTP "not base32!" SHA1 6 30 59 = .ret code none) :=
  have w := generateTOTP_key_is_secret_bytes "not base32!" SHA1 6 30 59 sha1New (by decide)
    (by decide) rfl
  ⟨rfl, w.1, w.2.1 (by decide), w.2.2 (by decide)⟩

set_option maxRecDepth 100000 in
/-- C8 (the code falls short of its documentation): the secret
"12345678901234567890" is valid base64 and decodes to 15 bytes, but the function
keys HMAC with the 20 ASCII bytes of the text and returns "287082"; the decoded
key would give "903738". -/
theorem generateTOTP_key_not_base64_decoded :
    base64Decode "12345678901234567890" =
      some [215, 109, 248, 231, 174, 252, 247, 77, 118, 223, 142, 122, 239, 207, 116] ∧
    generateTOTP "12345678901234567890" SHA1 6 30 59 =
      truncateAndFormat (hmac sha1New
        [49, 50, 51, 52, 53, 54, 55, 56, 57, 48, 49, 50, 51, 52, 53, 54, 55, 56, 57, 48]
        (counterBytes 59 30)) 6 ∧
    generateTOTP "12345678901234567890" SHA1 6 30 59 = .ret "287082" none ∧
    truncateAndFormat (hmac sha1New
        [215, 109, 248, 231, 174, 252, 247, 77, 118, 223, 142, 122, 239, 207, 116]
        (counterBytes 59 30)) 6 = .ret "903738" none := by
  decide

/-- C9: the empty secret is not rejected: with a supported algorithm, 1 to 18
digits and a positive time step, the function returns a code of `digits`
characters and a nil error. -/
theorem generateTOTP_empty_secret_accepted (algorithm : HashingAlgorithm)
    (digits timeStep now : Int) (hts : 0 < timeStep) (h1 : 1 ≤ digits) (h18 : digits ≤ 18)
    (ha : algorithm = SHA1 ∨ algorithm = SHA256 ∨ algorithm = SHA512) :
    ∃ code, generateTOTP "" algorithm digits timeStep now = .ret code none ∧
      (code.length : Int) = digits := by
  obtain ⟨h, hs⟩ := selectHash_supported ha
  obtain ⟨code, hc, hl, _⟩ :=
    generateTOTP_ok "" now hts (show 0 < digits by omega) (show digits ≤ 63 by omega) hs
  refine ⟨code, hc, ?_⟩
  rw [hl]
  omega

/-- C9 at SHA256 with 8 digits. -/
theorem generateTOTP_empty_secret_accepted_witness :
    ∃ code, generateTOTP "" SHA256 8 30 59 = .ret code none ∧ (code.length : Int) = 8 :=
  generateTOTP_empty_secret_accepted SHA256 8 30 59 (by decide) (by decide) (by decide)
    (Or.inr (Or.inl rfl))

/-- C10: `main` gates the core.  Every call of `generateTOTP` it makes has a
non-empty secret, the parsed digits and time step, and the algorithm variant
of a name that is exactly "SHA1", "SHA256" or "SHA512"; with an empty secret,
or with any other algorithm name, `main` prints an error message and the
usage, makes no call and prints no code line. -/
theorem main_gates_generateTOTP (fl : Flags) (now : Int) :
    (∀ s a d t, Event.call s a d t ∈ main fl now →
      fl.secret ≠ "" ∧ s = fl.secret ∧ d = fl.digits ∧ t = fl.timeStep ∧
      ((fl.algorithmStr = "SHA1" ∧ a = SHA1) ∨ (fl.algorithmStr = "SHA256" ∧ a = SHA256) ∨
        (fl.algorithmStr = "SHA512" ∧ a = SHA512))) ∧
    (fl.secret = "" →
      main fl now = [.stdout "Error: secret (-secret) is mandatory.", .usage]) ∧
    (fl.secret ≠ "" → fl.algorithmStr ≠ "SHA1" → fl.algorithmStr ≠ "SHA256" →
      fl.algorithmStr ≠ "SHA512" →
      main fl now = [.stdout ("Error: Algorithm '" ++ fl.algorithmStr ++
        "' not supported. (SHA1, SHA256 o SHA512)."), .usage]) := by
  refine ⟨?_, ?_, ?_⟩
  · intro s a d t hmem
    unfold main at hmem
    by_cases hsec : fl.secret = ""
    · simp [hsec] at hmem
    · rw [if_neg hsec] at hmem
      cases hp : parseAlgorithm fl.algorithmStr with
      | none => simp [hp] at hmem
      | some alg =>
        simp only [hp] at hmem
        have hcall : s = fl.secret ∧ a = alg ∧ d = fl.digits ∧ t = fl.timeStep := by
          rcases List.mem_cons.1 hmem with heq | htail
          · injection heq with e1 e2 e3 e4
            exact ⟨e1, e2, e3, e4⟩
          · exfalso
            cases hg : generateTOTP fl.secret alg fl.digits fl.timeStep now with
            | panic msg => simp [hg] at htail
            | ret code err =>
              cases err with
              | none => simp [hg] at htail
              | some e => simp [hg] at htail
        obtain ⟨e1, e2, e3, e4⟩ := hcall
        subst e2
        exact ⟨hsec, e1, e3, e4, parseAlgorithm_eq_some hp⟩
  · intro hsec
    simp only [main, hsec, if_true]
  · intro hsec h1 h2 h3
    simp only [main, hsec, if_false, parseAlgorithm_eq_none h1 h2 h3]

/-- C10 at an empty secret and at the algorithm names "sha1" and "MD5". -/
theorem main_gates_generateTOTP_witness :
    main ⟨"", "SHA1", 6, 30⟩ 59 = [.stdout "Error: secret (-secret) is mandatory.", .usage] ∧
    main ⟨"12345678901234567890", "sha1", 6, 30⟩ 59 =
      [.stdout "Error: Algorithm 'sha1' not supported. (SHA1, SHA256 o SHA512).", .usage] ∧
    main ⟨"12345678901234567890", "MD5", 6, 30⟩ 59 =
      [.stdout "Error: Algorithm 'MD5' not supported. (SHA1, SHA256 o SHA512).", .usage] :=
  ⟨(main_gates_generateTOTP ⟨"", "SHA1", 6, 30⟩ 59).2.1 rfl,
   (main_gates_generateTOTP ⟨"12345678901234567890", "sha1", 6, 30⟩ 59).2.2 (by decide)
     (by decide) (by decide) (by decide),
   (main_gates_generateTOTP ⟨"12345678901234567890", "MD5", 6, 30⟩ 59).2.2 (by decide)
     (by decide) (by decide) (by decide)⟩

/-- C11: counter derivation.  For an instant `0 <= now` of the 64-bit clock and
a positive time step, the message given to HMAC is exactly 8 bytes `b0..b7`,
each below 256, with `b0*256^7 + ... + b7 = floor(now / timeStep)`. -/
theorem counterBytes_big_endian_floor (secret : String) (algorithm : HashingAlgorithm)
    (digits timeStep now : Int) (h : HashFunc) (hnow : 0 ≤ now) (h63 : now < 2 ^ 63)
    (hts : 0 < timeStep) (hd : 0 < digits) (hs : selectHash algorithm = some h) :
    ∃ b0 b1 b2 b3 b4 b5 b6 b7 : Nat,
      counterBytes now timeStep = [b0, b1, b2, b3, b4, b5, b6, b7] ∧
      (b0 < 256 ∧ b1 < 256 ∧ b2 < 256 ∧ b3 < 256 ∧ b4 < 256 ∧ b5 < 256 ∧ b6 < 256 ∧
        b7 < 256) ∧
      ((b0 * 256 ^ 7 + b1 * 256 ^ 6 + b2 * 256 ^ 5 + b3 * 256 ^ 4 + b4 * 256 ^ 3 +
        b5 * 256 ^ 2 + b6 * 256 + b7 : Nat) : Int) = Int.fdiv now timeStep ∧
      generateTOTP secret algorithm digits timeStep now =
        truncateAndFormat (hmac h (stringBytes secret) [b0, b1, b2, b3, b4, b5, b6, b7])
          digits := by
  have hts0 : 0 ≤ timeStep := by omega
  have hfd : Int.fdiv now timeStep = Int.tdiv now timeStep := Int.fdiv_eq_tdiv hnow hts0
  have hc0 : 0 ≤ Int.tdiv now timeStep := Int.tdiv_nonneg hnow hts0
  have hcle : Int.tdiv now timeStep ≤ now := by
    rw [Int.tdiv_eq_ediv hnow hts0]
    exact Int.ediv_le_self _ hnow
  obtain ⟨x, hx⟩ := Int.eq_ofNat_of_zero_le hc0
  have hx64 : x < 2 ^ 64 := by
    have : (x : Int) < 2 ^ 63 := by omega
    have h2 : (x : Int) < 2 ^ 64 := by omega
    exact_mod_cast h2
  have hcb : counterBytes now timeStep = beBytes 8 x := by
    simp only [counterBytes, hx]
    congr 1
    have : ((x : Int) % 2 ^ 64) = (x : Int) := Int.emod_eq_of_lt (by omega) (by exact_mod_cast hx64)
    rw [this]
    rfl
  have hmod : ∀ y : Nat, y % 256 < 256 := fun y => Nat.mod_lt _ (by norm_num)
  refine ⟨_, _, _, _, _, _, _, _, hcb.trans (beBytes_eight x),
    ⟨hmod _, hmod _, hmod _, hmod _, hmod _, hmod _, hmod _, hmod _⟩, ?_, ?_⟩
  · rw [beBytes_eight_sum x hx64, hfd, hx]
  · rw [generateTOTP_valid now hts hd hs, hcb, beBytes_eight]

set_option maxRecDepth 100000 in
/-- C11 at `now = 1111111109`, step 30: the counter is 37037036 = 0x23523EC. -/
theorem counterBytes_big_endian_floor_witness :
    ∃ b0 b1 b2 b3 b4 b5 b6 b7 : Nat,
      counterBytes 1111111109 30 = [b0, b1, b2, b3, b4, b5, b6, b7] ∧
      (b0 < 256 ∧ b1 < 256 ∧ b2 < 256 ∧ b3 < 256 ∧ b4 < 256 ∧ b5 < 256 ∧ b6 < 256 ∧
        b7 < 256) ∧
      ((b0 * 256 ^ 7 + b1 * 256 ^ 6 + b2 * 256 ^ 5 + b3 * 256 ^ 4 + b4 * 256 ^ 3 +
        b5 * 256 ^ 2 + b6 * 256 + b7 : Nat) : Int) = Int.fdiv 1111111109 30 ∧
      generateTOTP "12345678901234567890" SHA1 8 30 1111111109 =
        truncateAndFormat
          (hmac sha1New (stringBytes "12345678901234567890") [b0, b1, b2, b3, b4, b5, b6, b7])
          8 :=
  counterBytes_big_endian_floor "12345678901234567890" SHA1 8 30 1111111109 sha1New
    (by decide) (by decide) (by decide) (by decide) rfl

/-- C12: dynamic truncation stays in bounds.  For a digest of 20, 32 or 64
bytes the offset is the low nibble of the last byte, it lies in 0..15, and
`offset + 4 <= len(digest)`, so `digest[offset : offset+4]` is a window of
exactly 4 bytes and neither the index nor the slice operation panics. -/
theorem truncation_window_in_bounds (hash : List Nat) (digits : Int)
    (hl : hash.length = 20 ∨ hash.length = 32 ∨ hash.length = 64) :
    (∀ last, hash.getLast? = some last → truncOffset hash = last &&& 0x0F) ∧
    truncOffset hash ≤ 15 ∧
    truncOffset hash + 4 ≤ hash.length ∧
    ((hash.drop (truncOffset hash)).take 4).length = 4 ∧
    truncateAndFormat hash digits ≠ .panic "runtime error: index out of range" ∧
    truncateAndFormat hash digits ≠ .panic "runtime error: slice bounds out of range" := by
  have hoff := truncOffset_lt hash
  have h20 : 20 ≤ hash.length := by omega
  have h1 : ¬ hash.length = 0 := by omega
  have h2 : ¬ hash.length < truncOffset hash + 4 := by omega
  refine ⟨?_, by omega, by omega, ?_, ?_, ?_⟩
  · intro last hlast
    rw [List.getLast?_eq_getElem?] at hlast
    simp only [truncOffset, List.getD_eq_getElem?_getD, hlast, Option.getD_some]
  · rw [List.length_take, List.length_drop]
    omega
  · simp only [truncateAndFormat, h1, h2, if_false]
    split_ifs <;> simp
  · simp only [truncateAndFormat, h1, h2, if_false]
    split_ifs <;> simp

set_option maxRecDepth 100000 in
/-- C12 at the HMAC-SHA-1 value of the RFC 6238 vector (last byte 0xab, offset 11). -/
theorem truncation_window_in_bounds_witness :
    rfc6238Digest.length = 20 ∧ truncOffset rfc6238Digest = 11 ∧
    truncOffset rfc6238Digest + 4 ≤ rfc6238Digest.length :=
  ⟨by decide, by decide,
   (truncation_window_in_bounds rfc6238Digest 6 (Or.inl (by decide))).2.2.1⟩

/-- C13: for a digest of bytes with the 4-byte window in range, `codeInt` is the
big-endian value of `digest[offset..offset+3]` with the top bit cleared,
`(d0 & 0x7F) * 2^24 + d1 * 2^16 + d2 * 2^8 + d3`, and `0 <= codeInt < 2^31`. -/
theorem codeInt_is_masked_big_endian (hash : List Nat) (hb : ∀ b ∈ hash, b < 256)
    (hl : truncOffset hash + 4 ≤ hash.length) :
    codeInt hash =
      (((hash.getD (truncOffset hash) 0 &&& 0x7F) * 2 ^ 24 +
        hash.getD (truncOffset hash + 1) 0 * 2 ^ 16 +
        hash.getD (truncOffset hash + 2) 0 * 2 ^ 8 +
        hash.getD (truncOffset hash + 3) 0 : Nat) : Int) ∧
    0 ≤ codeInt hash ∧ codeInt hash < 2 ^ 31 := by
  refine ⟨?_, codeInt_nonneg hash, codeInt_lt hash⟩
  have hget : ∀ i, i < hash.length → hash.getD i 0 < 256 := by
    intro i hi
    rw [List.getD_eq_getElem hash 0 hi]
    exact hb _ (List.getElem_mem hi)
  simp only [codeInt]
  rw [drop_take_four hash _ hl,
    beWord_four _ _ _ _ (hget _ (by omega)) (hget _ (by omega)) (hget _ (by omega))
      (hget _ (by omega)),
    mask31_four _ _ _ _ (hget _ (by omega)) (hget _ (by omega)) (hget _ (by omega))]

set_option maxRecDepth 100000 in
/-- C13 at the HMAC-SHA-1 value of the RFC 6238 vector: the window at offset 11
is `c1 39 7e ea`, and `codeInt` is `0x41397eea`. -/
theorem codeInt_is_masked_big_endian_witness :
    (rfc6238Digest.drop (truncOffset rfc6238Digest)).take 4 = [0xc1, 0x39, 0x7e, 0xea] ∧
    codeInt rfc6238Digest = 0x41397eea ∧
    (codeInt rfc6238Digest =
      (((rfc6238Digest.getD (truncOffset rfc6238Digest) 0 &&& 0x7F) * 2 ^ 24 +
        rfc6238Digest.getD (truncOffset rfc6238Digest + 1) 0 * 2 ^ 16 +
        rfc6238Digest.getD (truncOffset rfc6238Digest + 2) 0 * 2 ^ 8 +
        rfc6238Digest.getD (truncOffset rfc6238Digest + 3) 0 : Nat) : Int) ∧
      0 ≤ codeInt rfc6238Digest ∧ codeInt rfc6238Digest < 2 ^ 31) :=
  ⟨by decide, by decide,
   codeInt_is_masked_big_endian rfc6238Digest
     (hmac_byte_lt (show selectHash SHA1 = some sha1New from rfl) _ _) (by decide)⟩

/-- C14: validation precedence.  When several parameters are invalid at once
the time-step error is reported before the digits error, and both before the
unsupported-hashing error. -/
theorem generateTOTP_validation_precedence (secret : String) (algorithm : HashingAlgorithm)
    (digits timeStep now : Int) :
    (timeStep ≤ 0 → digits ≤ 0 → generateTOTP secret algorithm digits timeStep now =
      .ret "" (some "timestep has to be, timestep > 0")) ∧
    (timeStep ≤ 0 → selectHash algorithm = none →
      generateTOTP secret algorithm digits timeStep now =
        .ret "" (some "timestep has to be, timestep > 0")) ∧
    (0 < timeStep → digits ≤ 0 → selectHash algorithm = none →
      generateTOTP secret algorithm digits timeStep now =
        .ret "" (some "digits has to be, digits > 0")) := by
  refine ⟨?_, ?_, ?_⟩
  · intro h _
    simp only [generateTOTP, h, if_true]
  · intro h _
    simp only [generateTOTP, h, if_true]
  · intro h1 h2 _
    have h1 : ¬ timeStep ≤ 0 := by omega
    simp only [generateTOTP, h1, h2, if_true, if_false]

/-- C14 at the algorithm value 7, which no branch of the switch selects: time
step 0 with digits 0 gives the time-step error, time step 30 with digits 0 the
digits error. -/
theorem generateTOTP_validation_precedence_witness :
    selectHash 7 = none ∧
    generateTOTP "12345678901234567890" 7 0 0 59 =
      .ret "" (some "timestep has to be, timestep > 0") ∧
    generateTOTP "12345678901234567890" 7 6 0 59 =
      .ret "" (some "timestep has to be, timestep > 0") ∧
    generateTOTP "12345678901234567890" 7 0 30 59 =
      .ret "" (some "digits has to be, digits > 0") :=
  ⟨rfl,
   (generateTOTP_validation_precedence "12345678901234567890" 7 0 0 59).1 (by decide)
     (by decide),
   (generateTOTP_validation_precedence "12345678901234567890" 7 6 0 59).2.1 (by decide) rfl,
   (generateTOTP_validation_precedence "12345678901234567890" 7 0 30 59).2.2 (by decide)
     (by decide) rfl⟩

/-- C15: for 10 to 63 digits the divisor left by the loop in 64-bit arithmetic
is non-zero and exceeds `2^31 - 1` in absolute value, so the reduction is the
identity: the code is `binCode` zero-padded to `digits` characters, it denotes a
number below `2^31`, and its first `digits - 10` characters are `'0'`. -/
theorem generateTOTP_wide_digits_identity (secret : String) (algorithm : HashingAlgorithm)
    (digits timeStep now : Int) (hts : 0 < timeStep) (h10 : 10 ≤ digits) (h63 : digits ≤ 63)
    (ha : algorithm = SHA1 ∨ algorithm = SHA256 ∨ algorithm = SHA512) :
    ∃ (h : HashFunc) (binCode : Nat) (code : String), selectHash algorithm = some h ∧
      (binCode : Int) = codeInt (hmac h (stringBytes secret) (counterBytes now timeStep)) ∧
      modDivisorLoop digits.toNat 1 ≠ 0 ∧
      2 ^ 31 - 1 < (modDivisorLoop digits.toNat 1).natAbs ∧
      Int.tmod (binCode : Int) (modDivisorLoop digits.toNat 1) = (binCode : Int) ∧
      generateTOTP secret algorithm digits timeStep now = .ret code none ∧
      code = zeroPaddedDecimal digits.toNat binCode ∧
      (code.length : Int) = digits ∧
      decimalValue code = binCode ∧ binCode < 2 ^ 31 ∧
      ∀ c ∈ code.data.take (digits.toNat - 10), c = '0' := by
  obtain ⟨h, hs⟩ := selectHash_supported ha
  have h0 := codeInt_nonneg (hmac h (stringBytes secret) (counterBytes now timeStep))
  have h31 := codeInt_lt (hmac h (stringBytes secret) (counterBytes now timeStep))
  obtain ⟨binCode, hb⟩ := Int.eq_ofNat_of_zero_le h0
  have hb31 : binCode < 2 ^ 31 := by
    rw [hb] at h31
    exact_mod_cast h31
  have hn10 : 10 ≤ digits.toNat := by omega
  have hn64 : digits.toNat < 64 := by omega
  have hgt := modDivisorLoop_natAbs_gt hn10 hn64
  have htm : Int.tmod (binCode : Int) (modDivisorLoop digits.toNat 1) = (binCode : Int) :=
    tmod_eq_self_of_natAbs_gt (by omega) (by rw [Int.natAbs_ofNat]; omega)
  have h1010 : binCode < 10 ^ 10 := by
    have : (2 : Nat) ^ 31 < 10 ^ 10 := by norm_num
    omega
  have hpow : binCode < 10 ^ digits.toNat := by
    have : (10 : Nat) ^ 10 ≤ 10 ^ digits.toNat := Nat.pow_le_pow_right (by norm_num) hn10
    omega
  refine ⟨h, binCode, zeroPaddedDecimal digits.toNat binCode, hs, hb.symm,
    modDivisorLoop_ne_zero hn64, by omega, htm, ?_, rfl, ?_,
    decimalValue_zeroPaddedDecimal _ _, hb31, zeroPaddedDecimal_leading_zeros h1010⟩
  · rw [generateTOTP_valid now hts (by omega) hs,
      truncateAndFormat_ret (hmac_length_ge hs _ _) hn64, hb, htm, sprintfZeroPad_ofNat]
  · rw [zeroPaddedDecimal_length (by omega) hpow]
    omega

set_option maxRecDepth 100000 in
/-- C15 at the RFC 6238 secret with 19 digits, where the divisor has overflowed
to `-8446744073709551616`: the code is "0000000001094287082". -/
theorem generateTOTP_wide_digits_identity_witness :
    modDivisorLoop 19 1 = -8446744073709551616 ∧
    generateTOTP "12345678901234567890" SHA1 19 30 59 = .ret "0000000001094287082" none ∧
    ∃ (h : HashFunc) (binCode : Nat) (code : String), selectHash SHA1 = some h ∧
      (binCode : Int) =
        codeInt (hmac h (stringBytes "12345678901234567890") (counterBytes 59 30)) ∧
      modDivisorLoop (19 : Int).toNat 1 ≠ 0 ∧
      2 ^ 31 - 1 < (modDivisorLoop (19 : Int).toNat 1).natAbs ∧
      Int.tmod (binCode : Int) (modDivisorLoop (19 : Int).toNat 1) = (binCode : Int) ∧
      generateTOTP "12345678901234567890" SHA1 19 30 59 = .ret code none ∧
      code = zeroPaddedDecimal (19 : Int).toNat binCode ∧
      (code.length : Int) = 19 ∧
      decimalValue code = binCode ∧ binCode < 2 ^ 31 ∧
      ∀ c ∈ code.data.take ((19 : Int).toNat - 10), c = '0' :=
  ⟨by decide, by decide,
   generateTOTP_wide_digits_identity "12345678901234567890" SHA1 19 30 59 (by decide)
     (by decide) (by decide) (Or.inl rfl)⟩

/-- The unsupported-hashing branch is unreachable from `main`.  Every call
of `generateTOTP` that `main` makes passes SHA1, SHA256 or SHA512; the call does
not return the unsupported-hashing error, any error value it returns is the
time-step or the digits error, and `main` never prints the unsupported-hashing
message.  Nothing is said here of a call that panics. -/
theorem main_never_reaches_unsupported_hashing (fl : Flags) (now : Int) :
    (∀ s a d t, Event.call s a d t ∈ main fl now →
      (a = SHA1 ∨ a = SHA256 ∨ a = SHA512) ∧
      generateTOTP s a d t now ≠ .ret "" (some "hashing not supported") ∧
      ∀ code err, generateTOTP s a d t now = .ret code (some err) →
        err = "timestep has to be, timestep > 0" ∨ err = "digits has to be, digits > 0") ∧
    Event.stdout "Error while generating OTP: hashing not supported" ∉ main fl now := by
  refine ⟨?_, ?_⟩
  · intro s a d t hmem
    obtain ⟨_, _, hp, _, _⟩ := main_call_mem hmem
    have ha : a = SHA1 ∨ a = SHA256 ∨ a = SHA512 := by
      rcases parseAlgorithm_eq_some hp with ⟨_, h⟩ | ⟨_, h⟩ | ⟨_, h⟩
      · exact Or.inl h
      · exact Or.inr (Or.inl h)
      · exact Or.inr (Or.inr h)
    have herr : ∀ code err, generateTOTP s a d t now = .ret code (some err) →
        err = "timestep has to be, timestep > 0" ∨ err = "digits has to be, digits > 0" := by
      intro code err hr
      rcases generateTOTP_error_cases ha hr with ⟨_, h⟩ | ⟨_, _, h⟩
      · exact Or.inl h
      · exact Or.inr h
    refine ⟨ha, ?_, herr⟩
    intro hr
    rcases herr _ _ hr with h | h <;> exact absurd h (by decide)
  · intro hmem
    unfold main at hmem
    by_cases hsec : fl.secret = ""
    · simp [hsec] at hmem
    · rw [if_neg hsec] at hmem
      cases hp : parseAlgorithm fl.algorithmStr with
      | none =>
        simp only [hp, List.mem_cons, List.mem_singleton, Event.stdout.injEq] at hmem
        rcases hmem with h | h | h
        · have := congrArg (fun x : String => x.data.take 8) h
          simp at this
        · cases h
        · cases h
      | some alg =>
        have ha : alg = SHA1 ∨ alg = SHA256 ∨ alg = SHA512 := by
          rcases parseAlgorithm_eq_some hp with ⟨_, h⟩ | ⟨_, h⟩ | ⟨_, h⟩
          · exact Or.inl h
          · exact Or.inr (Or.inl h)
          · exact Or.inr (Or.inr h)
        simp only [hp] at hmem
        rcases List.mem_cons.1 hmem with heq | htail
        · cases heq
        · cases hg : generateTOTP fl.secret alg fl.digits fl.timeStep now with
          | panic msg => simp [hg] at htail
          | ret code err =>
            cases err with
            | none =>
              simp only [hg, List.mem_singleton, Event.stdout.injEq] at htail
              have := congrArg (fun x : String => x.data.take 2) htail
              simp at this
            | some e =>
              simp only [hg, List.mem_singleton, Event.stdout.injEq] at htail
              rcases generateTOTP_error_cases ha hg with ⟨_, h⟩ | ⟨_, _, h⟩
              · subst h
                exact absurd htail (by decide)
              · subst h
                exact absurd htail (by decide)

/-- At the flags `-secret 12345678901234567890 -alg SHA256 -digits 0` the
call is made with SHA256 and returns the digits error. -/
theorem main_never_reaches_unsupported_hashing_witness :
    Event.call "12345678901234567890" SHA256 0 30 ∈
      main ⟨"12345678901234567890", "SHA256", 0, 30⟩ 59 ∧
    generateTOTP "12345678901234567890" SHA256 0 30 59 =
      .ret "" (some "digits has to be, digits > 0") ∧
    (SHA256 = SHA1 ∨ SHA256 = SHA256 ∨ SHA256 = SHA512) ∧
    generateTOTP "12345678901234567890" SHA256 0 30 59
      ≠ .ret "" (some "hashing not supported") :=
  have w := (main_never_reaches_unsupported_hashing
    ⟨"12345678901234567890", "SHA256", 0, 30⟩ 59).1 "12345678901234567890" SHA256 0 30
    (by decide)
  ⟨by decide, by decide, w.1, w.2.1⟩

/-- C16 (the code falls short of it): a call made by `main` should fail only
with the time-step or the digits error, but with a non-empty secret, a supported
algorithm name, a positive time step and `digits >= 64` the call that `main`
makes, with SHA1, SHA256 or SHA512, fails with neither: the divisor has wrapped
to zero and the call panics with a division by zero, which ends `main`. -/
theorem main_call_panics_from_64_digits (fl : Flags) (now : Int) (a : HashingAlgorithm)
    (hsec : fl.secret ≠ "") (hp : parseAlgorithm fl.algorithmStr = some a)
    (hts : 0 < fl.timeStep) (hd : 64 ≤ fl.digits) :
    (a = SHA1 ∨ a = SHA256 ∨ a = SHA512) ∧
    generateTOTP fl.secret a fl.digits fl.timeStep now =
      .panic "runtime error: integer divide by zero" ∧
    main fl now = [.call fl.secret a fl.digits fl.timeStep,
      .panic "runtime error: integer divide by zero"] := by
  have ha : a = SHA1 ∨ a = SHA256 ∨ a = SHA512 := by
    rcases parseAlgorithm_eq_some hp with ⟨_, h⟩ | ⟨_, h⟩ | ⟨_, h⟩
    · exact Or.inl h
    · exact Or.inr (Or.inl h)
    · exact Or.inr (Or.inr h)
  obtain ⟨h, hs⟩ := selectHash_supported ha
  have hg : generateTOTP fl.secret a fl.digits fl.timeStep now =
      .panic "runtime error: integer divide by zero" := by
    rw [generateTOTP_valid now hts (by omega) hs]
    exact truncateAndFormat_panic (hmac_length_ge hs _ _) (by omega)
  refine ⟨ha, hg, ?_⟩
  simp only [main, hsec, if_false, hp, hg]

/-- C16 at the flags `-secret 12345678901234567890 -alg SHA1 -digits 64 -step 30`. -/
theorem main_call_panics_from_64_digits_witness :
    (SHA1 = SHA1 ∨ SHA1 = SHA256 ∨ SHA1 = SHA512) ∧
    generateTOTP "12345678901234567890" SHA1 64 30 59 =
      .panic "runtime error: integer divide by zero" ∧
    main ⟨"12345678901234567890", "SHA1", 64, 30⟩ 59 =
      [.call "12345678901234567890" SHA1 64 30,
       .panic "runtime error: integer divide by zero"] :=
  main_call_panics_from_64_digits ⟨"12345678901234567890", "SHA1", 64, 30⟩ 59 SHA1
    (by decide) rfl (by decide) (by decide)

end TOTP
